import Mathlib

/-!
# FossScope oscilloscope: capture state machine and waveform analysers

Shallow embedding of `source/oscilloscope/oscilloscope.c`.

* The file-level `static` variables of the C file are the fields of `OscState`.
* `oscilloscopeCallback` (the sampling callback) is a function of the state and of the
  values it reads from the hardware: the stick position `x`, `y` (an `s8` each) and the
  microseconds since the previous call (`ticks_to_microsecs (...)`).
* `menu_oscilloscope` (one pass of the main loop) is a function of the state and of the
  button words `*pressed` and `*held`.
* The sample array has `WAVEFORM_SAMPLES` slots, a constant of `waveform.h`; the capacity is
  a parameter `cap` of every definition that needs it.  An access to a slot `>= cap` is
  undefined behaviour in C and is modelled by the result `none`.
* `u64` accumulators wrap modulo `2 ^ 64`.
* The `float` computations of the analysers are carried out over `ℚ`.
-/

namespace FossScope

/-! ## Constants -/

/-- The constant `#define STICK_MOVEMENT_THRESHOLD 5`. -/
def STICK_MOVEMENT_THRESHOLD : Int := 5

/-- The constant `#define MEASURE_COOLDOWN_FRAMES 5`. -/
def MEASURE_COOLDOWN_FRAMES : Nat := 5

/-- Modelled from the spec: `WAVEFORM_SAMPLES` is defined in `waveform.h`, which is missing;
the spec gives the capacity `MAX_SAMPLES` as 500. -/
def WAVEFORM_SAMPLES : Nat := 500

/-- Modulus of the `u64` accumulators. -/
def U64_MOD : Nat := 18446744073709551616

/-! ## Data model -/

/-- One polled datapoint (`WaveformDatapoint`): stick position and the time since the
previous datapoint in microseconds. -/
structure WaveformDatapoint where
  ax : Int
  ay : Int
  timeDiffUs : Nat
deriving DecidableEq, Repr

/-- The capture buffer (`WaveformData`): `data` is the sample array (slot `k` is `data k`),
`endPoint` the number of recorded samples, `totalTimeUs` and `isDataReady` as in the C struct. -/
structure WaveformData where
  data : Nat → WaveformDatapoint
  endPoint : Nat
  totalTimeUs : Nat
  isDataReady : Bool

/-- The type `enum OSCILLOSCOPE_STATE`. -/
inductive OSCILLOSCOPE_STATE where
  | PRE_INPUT
  | POST_INPUT_LOCK
  | POST_INPUT
deriving DecidableEq, Repr

/-- The type `enum MENU_STATE`. -/
inductive MENU_STATE where
  | OSC_SETUP
  | OSC_POST_SETUP
  | OSC_INSTRUCTIONS
deriving DecidableEq, Repr

/-- The type `enum OSCILLOSCOPE_TEST`, in the order of the `switch` statements of the C file. -/
inductive OSCILLOSCOPE_TEST where
  | SNAPBACK
  | PIVOT
  | DASHBACK
  | NO_TEST
deriving DecidableEq, Repr

/-- The `static` variables of `oscilloscope.c` that the capture logic reads or writes. -/
structure OscState where
  state : MENU_STATE
  oState : OSCILLOSCOPE_STATE
  data : WaveformData
  currentTest : OSCILLOSCOPE_TEST
  dataScrollOffset : Int
  stickCooldown : Nat
  stickMove : Bool
  display : Bool
  timeStickInOrigin : Nat
  buttonLock : Bool

/-- Array store `a[i] = v`. -/
def setAt (a : Nat → WaveformDatapoint) (i : Nat) (v : WaveformDatapoint) :
    Nat → WaveformDatapoint :=
  fun k => if k = i then v else a k

/-- The zero-initialised sample array. -/
def zeroData : Nat → WaveformDatapoint :=
  fun _ => ⟨0, 0, 0⟩

/-- The initial values of the `static` variables.  `t0` is the initial `data.totalTimeUs`
(the layout of the initialiser `{ {{ 0 }}, 0, 500, false, false }` is fixed by the missing
`waveform.h`). -/
def initStateWith (t0 : Nat) : OscState :=
  { state := MENU_STATE.OSC_SETUP
    oState := OSCILLOSCOPE_STATE.PRE_INPUT
    data := { data := zeroData, endPoint := 0, totalTimeUs := t0, isDataReady := false }
    currentTest := OSCILLOSCOPE_TEST.SNAPBACK
    dataScrollOffset := 0
    stickCooldown := 0
    stickMove := false
    display := false
    timeStickInOrigin := 0
    buttonLock := false }

/-- The initial state with `totalTimeUs = 0`. -/
def initState : OscState := initStateWith 0

/-! ## The sampling callback -/

/-- The test `x < T && x > -T && y < T && y > -T` ("are we close to the origin?"). -/
def nearOrigin (x y : Int) : Bool :=
  decide ((x < STICK_MOVEMENT_THRESHOLD ∧ x > -STICK_MOVEMENT_THRESHOLD) ∧
    (y < STICK_MOVEMENT_THRESHOLD ∧ y > -STICK_MOVEMENT_THRESHOLD))

/-- The test `x > T || x < -T || y > T || y < -T` ("does the stick move outside the
threshold?"). -/
def outsideThreshold (x y : Int) : Bool :=
  decide ((x > STICK_MOVEMENT_THRESHOLD ∨ x < -STICK_MOVEMENT_THRESHOLD) ∨
    (y > STICK_MOVEMENT_THRESHOLD) ∨ (y < -STICK_MOVEMENT_THRESHOLD))

/-- The stick part of `oscilloscopeCallback`: `x`, `y` are the stick readings and `dt` is
`ticks_to_microsecs (sampleCallbackTick - prevSampleCallbackTick)`.  The result is `none`
when the C code would store outside `data.data`. -/
def oscilloscopeCallback (cap : Nat) (s : OscState) (x y : Int) (dt : Nat) : Option OscState :=
  if s.oState ≠ OSCILLOSCOPE_STATE.POST_INPUT_LOCK then
    if s.stickMove then
      if s.data.endPoint < cap then
        let arr := setAt s.data.data s.data.endPoint ⟨x, y, dt⟩
        let endPoint := s.data.endPoint + 1
        let origin := if nearOrigin x y then (s.timeStickInOrigin + dt) % U64_MOD else 0
        if endPoint = cap ∨ origin / 1000 ≥ 40 then
          some { s with
            data := { s.data with data := arr, endPoint := endPoint, isDataReady := true }
            timeStickInOrigin := origin
            stickMove := false
            display := true
            oState := OSCILLOSCOPE_STATE.POST_INPUT_LOCK
            stickCooldown := MEASURE_COOLDOWN_FRAMES }
        else
          some { s with
            data := { s.data with data := arr, endPoint := endPoint }
            timeStickInOrigin := origin }
      else none
    else
      if outsideThreshold x y then
        if 0 < cap then
          some { s with
            stickMove := true
            data := { s.data with data := setAt s.data.data 0 ⟨x, y, dt⟩, endPoint := 1 }
            oState := OSCILLOSCOPE_STATE.PRE_INPUT }
        else none
      else some s
  else some s

/-- Feed a sequence of samples `(x, y, dt)` to the callback, one call per sample. -/
def runSamples (cap : Nat) : OscState → List WaveformDatapoint → Option OscState
  | s, [] => some s
  | s, p :: ps =>
    match oscilloscopeCallback cap s p.ax p.ay p.timeDiffUs with
    | none => none
    | some s1 => runSamples cap s1 ps

/-! ## Notions used to state the properties of the recording phase -/

/-- A sample with `|x| < 5` and `|y| < 5`. -/
def atRest (p : WaveformDatapoint) : Bool :=
  decide (|p.ax| < 5 ∧ |p.ay| < 5)

/-- The current unbroken streak of resting samples: the longest suffix of the samples seen
so far in which every sample is at rest. -/
def currentStreak (l : List WaveformDatapoint) : List WaveformDatapoint :=
  (l.reverse.takeWhile atRest).reverse

/-- Sum of `timeDiffUs` over the current unbroken streak of resting samples. -/
def streakSum (l : List WaveformDatapoint) : Nat :=
  ((currentStreak l).map WaveformDatapoint.timeDiffUs).sum

/-- Store the samples of `l` in consecutive slots, starting at slot `i`. -/
def fillFrom (a : Nat → WaveformDatapoint) : Nat → List WaveformDatapoint → Nat → WaveformDatapoint
  | _, [] => a
  | i, p :: ps => fillFrom (setAt a i p) (i + 1) ps

/-- The state in the middle of the first capture: `first` started it, `rest` followed. -/
def recordingState (t0 : Nat) (first : WaveformDatapoint) (rest : List WaveformDatapoint) :
    OscState :=
  { initStateWith t0 with
    stickMove := true
    data := { data := fillFrom zeroData 0 (first :: rest), endPoint := rest.length + 1,
              totalTimeUs := t0, isDataReady := false }
    timeStickInOrigin := streakSum rest }

/-- The state right after the first capture has ended with the last sample of `rest`. -/
def endedState (t0 : Nat) (first : WaveformDatapoint) (rest : List WaveformDatapoint) :
    OscState :=
  { initStateWith t0 with
    stickMove := false
    display := true
    oState := OSCILLOSCOPE_STATE.POST_INPUT_LOCK
    stickCooldown := MEASURE_COOLDOWN_FRAMES
    data := { data := fillFrom zeroData 0 (first :: rest), endPoint := rest.length + 1,
              totalTimeUs := t0, isDataReady := true }
    timeStickInOrigin := streakSum rest }

/-! ## The main-loop pass `menu_oscilloscope`

Only the effect on the `static` variables is modelled; what the pass draws and prints is
given by the analyser functions further down.  The button words are the values of
`*pressed` and `*held` at the time of the pass. -/

/-- The mask `PAD_BUTTON_LEFT` (libogc). -/
def PAD_BUTTON_LEFT : Nat := 0x0001

/-- The mask `PAD_BUTTON_RIGHT` (libogc). -/
def PAD_BUTTON_RIGHT : Nat := 0x0002

/-- The mask `PAD_TRIGGER_Z` (libogc). -/
def PAD_TRIGGER_Z : Nat := 0x0010

/-- The mask `PAD_TRIGGER_R` (libogc). -/
def PAD_TRIGGER_R : Nat := 0x0020

/-- The mask `PAD_BUTTON_A` (libogc). -/
def PAD_BUTTON_A : Nat := 0x0100

/-- The mask `PAD_BUTTON_X` (libogc). -/
def PAD_BUTTON_X : Nat := 0x0400

/-- The C condition `word & mask`. -/
def testMask (word mask : Nat) : Bool :=
  decide (Nat.land word mask ≠ 0)

/-- The cooldown of `case POST_INPUT_LOCK:` "dont allow new input until cooldown elapses". -/
def cooldownStep (s : OscState) : OscState :=
  if s.stickCooldown ≠ 0 then
    let c := s.stickCooldown - 1
    if c = 0 then { s with stickCooldown := c, oState := OSCILLOSCOPE_STATE.POST_INPUT }
    else { s with stickCooldown := c }
  else s

/-- The scroll handling "does the user want to scroll the waveform?" for `data.endPoint >= 500`. -/
def scrollStep (endPoint : Nat) (held : Nat) (off : Int) : Int :=
  if testMask held PAD_BUTTON_RIGHT then
    if testMask held PAD_TRIGGER_R then
      if off + 510 < (endPoint : Int) then off + 10 else off
    else
      if off + 501 < (endPoint : Int) then off + 1 else off
  else if testMask held PAD_BUTTON_LEFT then
    if testMask held PAD_TRIGGER_R then
      if off - 10 ≥ 0 then off - 10 else off
    else
      if off - 1 ≥ 0 then off - 1 else off
  else off

/-- The offset the waveform is read from: `if (data.endPoint < 500) dataScrollOffset = 0;`. -/
def viewOffset (endPoint : Nat) (off : Int) : Int :=
  if endPoint < 500 then 0 else off

/-- The branch `case POST_INPUT:` (also reached by fall-through from `POST_INPUT_LOCK`): the state
changes of the block guarded by `data.isDataReady`. -/
def postInputCase (s : OscState) (held : Nat) : OscState :=
  if s.data.isDataReady then
    let off := viewOffset s.data.endPoint s.dataScrollOffset
    if s.data.endPoint ≥ 500 then { s with dataScrollOffset := scrollStep s.data.endPoint held off }
    else { s with dataScrollOffset := off }
  else s

/-- The step `currentTest++` with the wrap-around at `OSCILLOSCOPE_TEST_LEN`. -/
def nextTest : OSCILLOSCOPE_TEST → OSCILLOSCOPE_TEST
  | OSCILLOSCOPE_TEST.SNAPBACK => OSCILLOSCOPE_TEST.PIVOT
  | OSCILLOSCOPE_TEST.PIVOT => OSCILLOSCOPE_TEST.DASHBACK
  | OSCILLOSCOPE_TEST.DASHBACK => OSCILLOSCOPE_TEST.NO_TEST
  | OSCILLOSCOPE_TEST.NO_TEST => OSCILLOSCOPE_TEST.SNAPBACK

/-- The button handling at the end of `case OSC_POST_SETUP:`. -/
def buttonStep (s : OscState) (pressed : Nat) : OscState :=
  if !s.buttonLock then
    let s1 : OscState :=
      if testMask pressed PAD_BUTTON_A && !s.buttonLock then
        { s with
          oState :=
            if s.oState = OSCILLOSCOPE_STATE.POST_INPUT_LOCK ∧ s.stickCooldown = 0
            then OSCILLOSCOPE_STATE.POST_INPUT else OSCILLOSCOPE_STATE.POST_INPUT_LOCK
          buttonLock := true }
      else s
    let s2 : OscState :=
      if testMask pressed PAD_BUTTON_X && !s1.buttonLock then
        { s1 with currentTest := nextTest s1.currentTest, buttonLock := true }
      else s1
    if testMask pressed PAD_TRIGGER_Z && !s2.buttonLock then
      { s2 with state := MENU_STATE.OSC_INSTRUCTIONS, buttonLock := true }
    else s2
  else s

/-- The state change of `printInstructions`. -/
def printInstructions (s : OscState) (pressed : Nat) : OscState :=
  if !s.buttonLock then
    if testMask pressed PAD_TRIGGER_Z then
      { s with state := MENU_STATE.OSC_POST_SETUP, buttonLock := true }
    else s
  else s

/-- One call of `menu_oscilloscope`. -/
def menu_oscilloscope (s : OscState) (pressed held : Nat) : OscState :=
  let s1 : OscState :=
    match s.state with
    | MENU_STATE.OSC_SETUP => { s with state := MENU_STATE.OSC_POST_SETUP }
    | MENU_STATE.OSC_POST_SETUP =>
      let s2 : OscState :=
        match s.oState with
        | OSCILLOSCOPE_STATE.PRE_INPUT => s
        | OSCILLOSCOPE_STATE.POST_INPUT_LOCK => postInputCase (cooldownStep s) held
        | OSCILLOSCOPE_STATE.POST_INPUT => postInputCase s held
      buttonStep s2 pressed
    | MENU_STATE.OSC_INSTRUCTIONS => printInstructions s pressed
  if held = 0 ∧ s1.buttonLock = true then { s1 with buttonLock := false } else s1

/-- What happens to the program: a call of the sampling callback or a main-loop pass. -/
inductive Event where
  | sample (x y : Int) (dt : Nat)
  | frame (pressed held : Nat)

/-- The effect of one event. -/
def stepEvent (cap : Nat) (s : OscState) : Event → Option OscState
  | Event.sample x y dt => oscilloscopeCallback cap s x y dt
  | Event.frame pressed held => some (menu_oscilloscope s pressed held)

/-- The effect of a sequence of events. -/
def runEvents (cap : Nat) : OscState → List Event → Option OscState
  | s, [] => some s
  | s, e :: es =>
    match stepEvent cap s e with
    | none => none
    | some s1 => runEvents cap s1 es

/-- Sum of `timeDiffUs` over `samples[0..count)`. -/
def sumTimeDiff (d : WaveformData) : Nat :=
  ((List.range d.endPoint).map (fun k => (d.data k).timeDiffUs)).sum

/-! ## Snapback: the min/max statistics of the drawing loop -/

/-- The variable `static int waveformScaleFactor = 1;` (never written: the code that changes it is
commented out). -/
def waveformScaleFactor : Nat := 1

/-- The four statistics `minX`, `maxX`, `minY`, `maxY`. -/
structure SnapbackStats where
  minX : Int
  maxX : Int
  minY : Int
  maxY : Int
deriving DecidableEq, Repr

/-- The block "update stat values" with the datapoint just drawn. -/
def snapbackUpdate (st : SnapbackStats) (p : WaveformDatapoint) : SnapbackStats :=
  { minX := if st.minX > p.ax then p.ax else st.minX
    maxX := if st.maxX < p.ax then p.ax else st.maxX
    minY := if st.minY > p.ay then p.ay else st.minY
    maxY := if st.maxY < p.ay then p.ay else st.maxY }

/-- The loop `for (int i = dataScrollOffset + 1; i < dataScrollOffset + 500; i++)`: the first
argument is the number of values of `i` still to come, then `i` and `waveformXPos`. -/
def snapbackLoop (cap : Nat) (d : WaveformData) :
    Nat → Nat → Nat → SnapbackStats → Option SnapbackStats
  | 0, _, _, st => some st
  | n + 1, i, waveformXPos, st =>
    if i = d.endPoint ∨ waveformXPos ≥ 500 then some st
    else if i < cap then
      snapbackLoop cap d n (i + 1) (waveformXPos + waveformScaleFactor)
        (snapbackUpdate st (d.data i))
    else none

/-- The statistics a main-loop pass prints for the SNAPBACK test when it finds the buffer `d`
and the scroll offset `dataScrollOffset`; `none` when a slot outside the array is read. -/
def snapbackMinMax (cap : Nat) (d : WaveformData) (dataScrollOffset : Int) :
    Option SnapbackStats :=
  let off := viewOffset d.endPoint dataScrollOffset
  if 0 ≤ off ∧ off.toNat < cap then
    let p := d.data off.toNat
    snapbackLoop cap d 499 (off.toNat + 1) waveformScaleFactor
      { minX := p.ax, maxX := p.ax, minY := p.ay, maxY := p.ay }
  else none

/-- The value `m` is exactly the minimum of `f` over `[0, n)`. -/
def IsMinOver (f : Nat → Int) (n : Nat) (m : Int) : Prop :=
  (∀ k < n, m ≤ f k) ∧ ∃ k < n, f k = m

/-- The value `m` is exactly the maximum of `f` over `[0, n)`. -/
def IsMaxOver (f : Nat → Int) (n : Nat) (m : Int) : Prop :=
  (∀ k < n, f k ≤ m) ∧ ∃ k < n, f k = m

/-! ## Pivot -/

/-- The local variables of the PIVOT scan. -/
structure PivotScan where
  pivotHit80 : Bool
  prevPivotHit80 : Bool
  leftPivotRange : Bool
  prevLeftPivotRange : Bool
  pivotStartIndex : Int
  pivotEndIndex : Int
  pivotStartSign : Int
deriving DecidableEq, Repr

/-- The initial values of the scan variables. -/
def pivotInit : PivotScan :=
  { pivotHit80 := false, prevPivotHit80 := false, leftPivotRange := false,
    prevLeftPivotRange := false, pivotStartIndex := -1, pivotEndIndex := -1,
    pivotStartSign := 0 }

/-- First `if` of the loop body: "check x coordinate for +-64 (dash threshold)". -/
def pivotMarkEnd (ax : Int) (i : Nat) (st : PivotScan) : PivotScan :=
  if ax ≥ 64 ∨ ax ≤ -64 then
    let st1 : PivotScan := if st.pivotEndIndex = -1 then { st with pivotEndIndex := i } else st
    if ax ≥ 80 ∨ ax ≤ -80 then { st1 with pivotHit80 := true } else st1
  else st

/-- Third `if` of the loop body: "look for the initial input".  The flag is `true` when the
loop is left with `break`. -/
def pivotMarkStart (ax : Int) (st : PivotScan) : PivotScan × Bool :=
  if (ax ≥ 64 ∨ ax ≤ -64) ∧ st.leftPivotRange = true then
    let st1 : PivotScan :=
      { st with
        pivotStartSign := if st.pivotStartSign = 0 then ax else st.pivotStartSign
        prevLeftPivotRange := true }
    if ax ≥ 80 ∨ ax ≤ -80 then ({ st1 with prevPivotHit80 := true }, true) else (st1, false)
  else (st, false)

/-- One pass through the body of the backward loop at index `i`, where `ax` is
`data.data[i].ax`.  The flag is `true` when the loop is left with `break`. -/
def pivotBody (ax : Int) (i : Nat) (st : PivotScan) : PivotScan × Bool :=
  let st1 := pivotMarkEnd ax i st
  if st1.pivotEndIndex ≠ -1 ∧ ax < 64 ∧ ax > -64 then
    let st2 : PivotScan :=
      { st1 with
        leftPivotRange := true
        pivotStartIndex := if st1.pivotStartIndex = -1 then (i : Int) + 1 else st1.pivotStartIndex }
    if st2.prevLeftPivotRange = true ∨ st2.pivotHit80 = false then (st2, true)
    else pivotMarkStart ax st2
  else pivotMarkStart ax st1

/-- The loop `for (int i = data.endPoint; i >= 0; i--)`, entered at index `i`; `none` when a
slot outside the array is read. -/
def pivotScan (cap : Nat) (d : WaveformData) : Nat → PivotScan → Option PivotScan
  | 0, st => if 0 < cap then some (pivotBody (d.data 0).ax 0 st).1 else none
  | i + 1, st =>
    if i + 1 < cap then
      let r := pivotBody (d.data (i + 1)).ax (i + 1) st
      if r.2 then some r.1 else pivotScan cap d i r.1
    else none

/-- Wrapping `u64` sum of `timeDiffUs` over the slots `first, first + 1, ...` (`n` of them),
added to `acc`. -/
def sumTimeU64 (d : WaveformData) : Nat → Nat → Nat → Nat
  | 0, _, acc => acc
  | n + 1, first, acc => sumTimeU64 d n (first + 1) ((acc + (d.data first).timeDiffUs) % U64_MOD)

/-- The numbers printed for a detected pivot. -/
structure PivotPercents where
  timeInPivotRangeMs : ℚ
  noTurnPercent : ℚ
  pivotPercent : ℚ
  dashbackPercent : ℚ

/-- The percentages computed from `timeInPivotRangeUs`; `F` is `FRAME_TIME_MS` (a constant of
the missing `waveform.h`). -/
def pivotPercents (F : ℚ) (timeInPivotRangeUs : Nat) : PivotPercents :=
  let timeInPivotRangeMs : ℚ := (timeInPivotRangeUs : ℚ) / 1000
  let diffFrameTimePoll : ℚ := F - timeInPivotRangeMs
  if diffFrameTimePoll < 0 then
    let dashbackPercent : ℚ := ((diffFrameTimePoll * -1) / F) * 100
    let dashbackPercent : ℚ := if dashbackPercent > 100 then 100 else dashbackPercent
    { timeInPivotRangeMs := timeInPivotRangeMs, noTurnPercent := 0,
      pivotPercent := 100 - dashbackPercent, dashbackPercent := dashbackPercent }
  else
    let noTurnPercent : ℚ := (diffFrameTimePoll / F) * 100
    let noTurnPercent : ℚ := if noTurnPercent > 100 then 100 else noTurnPercent
    { timeInPivotRangeMs := timeInPivotRangeMs, noTurnPercent := noTurnPercent,
      pivotPercent := 100 - noTurnPercent, dashbackPercent := 0 }

/-- What the PIVOT test reports: "No pivot input detected." or the numbers of a pivot. -/
inductive PivotResult where
  | noPivot
  | pivot (pivotStartIndex pivotEndIndex : Int) (timeInPivotRangeUs : Nat) (pct : PivotPercents)

/-- The PIVOT test of a main-loop pass on the buffer `d`; `none` when a slot outside the array
is read. -/
def pivotTest (F : ℚ) (cap : Nat) (d : WaveformData) : Option PivotResult :=
  match pivotScan cap d d.endPoint pivotInit with
  | none => none
  | some st =>
    if st.prevPivotHit80 = true ∧ st.pivotHit80 = true then
      if 0 ≤ st.pivotEndIndex ∧ st.pivotEndIndex.toNat < cap then
        if (d.data st.pivotEndIndex.toNat).ax * st.pivotStartSign < 0 then
          if 0 ≤ st.pivotStartIndex then
            let timeInPivotRangeUs := sumTimeU64 d
              (st.pivotEndIndex + 1 - st.pivotStartIndex).toNat st.pivotStartIndex.toNat 0
            some (PivotResult.pivot st.pivotStartIndex st.pivotEndIndex timeInPivotRangeUs
              (pivotPercents F timeInPivotRangeUs))
          else none
        else some PivotResult.noPivot
      else none
    else some PivotResult.noPivot

/-! ## Dashback -/

/-- The test "is the stick in the range": `(ax >= 23 && ax < 64) || (ax <= -23 && ax > -64)`. -/
def inDashZone (ax : Int) : Bool :=
  decide ((ax ≥ 23 ∧ ax < 64) ∨ (ax ≤ -23 ∧ ax > -64))

/-- The local variables of the DASHBACK scan. -/
structure DashScan where
  dashbackStartIndex : Int
  dashbackEndIndex : Int
  timeInRange : Nat
deriving DecidableEq, Repr

/-- The initial values of the scan variables. -/
def dashInit : DashScan :=
  { dashbackStartIndex := -1, dashbackEndIndex := -1, timeInRange := 0 }

/-- The loop `for (int i = 0; i < data.endPoint; i++)` ("go forward in list"): the first
argument is the number of values of `i` still to come, the second is `i`; `none` when a slot
outside the array is read. -/
def dashScan (cap : Nat) (d : WaveformData) : Nat → Nat → DashScan → Option DashScan
  | 0, _, st => some st
  | n + 1, i, st =>
    if i < cap then
      if inDashZone (d.data i).ax then
        dashScan cap d n (i + 1)
          { st with
            timeInRange := (st.timeInRange + (d.data i).timeDiffUs) % U64_MOD
            dashbackStartIndex := if st.dashbackStartIndex = -1 then (i : Int)
              else st.dashbackStartIndex }
      else if st.dashbackStartIndex ≠ -1 then
        some { st with dashbackEndIndex := (i : Int) - 1 }
      else dashScan cap d n (i + 1) st
    else none

/-- The loop `while (usFromPoll < 16666) { nextPollIndex++; usFromPoll += ...; }`: the result
is the final `nextPollIndex`, or `none` when a slot outside the array is read.  The first
argument bounds the number of iterations; with the value `cap` it is never exhausted before
the index leaves the array. -/
def ucfLookahead (cap : Nat) (d : WaveformData) : Nat → Nat → Nat → Option Nat
  | 0, nextPollIndex, usFromPoll => if usFromPoll < 16666 then none else some nextPollIndex
  | fuel + 1, nextPollIndex, usFromPoll =>
    if usFromPoll < 16666 then
      if nextPollIndex + 1 < cap then
        ucfLookahead cap d fuel (nextPollIndex + 1)
          ((usFromPoll + (d.data (nextPollIndex + 1)).timeDiffUs) % U64_MOD)
      else none
    else some nextPollIndex

/-- Wrapping `u64` subtraction `a -= b`. -/
def subU64 (a b : Nat) : Nat :=
  (a + (U64_MOD - b % U64_MOD)) % U64_MOD

/-- The test "the two frames need to move more than 75 units for UCF to convert it". -/
def ucfConverts (d : WaveformData) (i nextPollIndex : Nat) : Bool :=
  decide ((d.data i).ax + (d.data nextPollIndex).ax > 75 ∨
    (d.data i).ax + (d.data nextPollIndex).ax < -75)

/-- The loop `for (int i = dashbackStartIndex; i <= dashbackEndIndex; i++)` of the UCF
correction: the first argument is the number of values of `i` still to come, then `i` and
`ucfTimeInRange`. -/
def ucfPass (cap : Nat) (d : WaveformData) : Nat → Nat → Nat → Option Nat
  | 0, _, ucfTimeInRange => some ucfTimeInRange
  | n + 1, i, ucfTimeInRange =>
    match ucfLookahead cap d cap i 0 with
    | none => none
    | some nextPollIndex =>
      ucfPass cap d n (i + 1)
        (if ucfConverts d i nextPollIndex then subU64 ucfTimeInRange (d.data i).timeDiffUs
         else ucfTimeInRange)

/-- Upper clamp `if (p > 100) p = 100;` followed by the lower clamp `if (p < 0) p = 0;`. -/
def clampPercent (p : ℚ) : ℚ :=
  let p1 : ℚ := if p > 100 then 100 else p
  if p1 < 0 then 0 else p1

/-- The value of `dashbackPercent` after the clamps; `F` is `FRAME_TIME_MS`. -/
def vanillaPercent (F : ℚ) (timeInRange : Nat) : ℚ :=
  let timeInRangeMs : ℚ := (timeInRange : ℚ) / 1000
  clampPercent ((1 - timeInRangeMs / F) * 100)

/-- The value of `ucfPercent` after the clamps. -/
def ucfPercentOf (F : ℚ) (ucfTimeInRange : Nat) : ℚ :=
  let ucfTimeInRangeMs : ℚ := (ucfTimeInRange : ℚ) / 1000
  clampPercent (if ucfTimeInRangeMs ≤ 0 then 100 else (1 - ucfTimeInRangeMs / F) * 100)

/-- What the DASHBACK test computes: the scan variables, the corrected time (the uncorrected
one when no run was delimited) and the two percentages it prints. -/
structure DashbackResult where
  dashbackStartIndex : Int
  dashbackEndIndex : Int
  timeInRange : Nat
  ucfTimeInRange : Nat
  dashbackPercent : ℚ
  ucfPercent : ℚ

/-- The DASHBACK test of a main-loop pass on the buffer `d`; `none` when a slot outside the
array is read. -/
def dashbackTest (F : ℚ) (cap : Nat) (d : WaveformData) : Option DashbackResult :=
  match dashScan cap d d.endPoint 0 dashInit with
  | none => none
  | some st =>
    if st.dashbackEndIndex = -1 then
      some { dashbackStartIndex := st.dashbackStartIndex, dashbackEndIndex := st.dashbackEndIndex,
             timeInRange := st.timeInRange, ucfTimeInRange := st.timeInRange,
             dashbackPercent := 0, ucfPercent := 0 }
    else
      match ucfPass cap d (st.dashbackEndIndex + 1 - st.dashbackStartIndex).toNat
          st.dashbackStartIndex.toNat st.timeInRange with
      | none => none
      | some ucfTimeInRange =>
        some { dashbackStartIndex := st.dashbackStartIndex,
               dashbackEndIndex := st.dashbackEndIndex,
               timeInRange := st.timeInRange, ucfTimeInRange := ucfTimeInRange,
               dashbackPercent := vanillaPercent F st.timeInRange,
               ucfPercent := ucfPercentOf F ucfTimeInRange }

/-! ## Notions and example inputs used to state the properties of the analysers -/

/-- The buffer holding exactly the samples of `l`. -/
def bufferOf (l : List WaveformDatapoint) : WaveformData :=
  { data := fillFrom zeroData 0 l, endPoint := l.length, totalTimeUs := 0, isDataReady := true }

/-- Sum of `timeDiffUs` over the `n` slots `first, first + 1, ...` (no wrap-around). -/
def sumTimeRange (d : WaveformData) (first n : Nat) : Nat :=
  ((List.range' first n).map (fun k => (d.data k).timeDiffUs)).sum

/-- A capture that runs from `x = +85` down through the dash zone to `x = -85` and back to
rest; the stick stays beyond `-64` for `usAtEnd` microseconds in each of two samples. -/
def pivotExample (usAtEnd : Nat) : WaveformData :=
  bufferOf [⟨85, 0, 1000⟩, ⟨70, 0, 1000⟩, ⟨30, 0, 1000⟩, ⟨-30, 0, 1000⟩, ⟨-70, 0, usAtEnd⟩,
    ⟨-85, 0, usAtEnd⟩, ⟨0, 0, 1000⟩]

/-- Two captures in a row with the PIVOT test selected: the setup pass, a pass with X pressed
and one with all buttons released; `(-85, 0), (0, 0), (85, 0)` and 40 ms at rest; five
main-loop passes for the cooldown; then `(-85, 0)` and 40 ms at rest. -/
def twoCaptures : List Event :=
  [Event.frame 0 0, Event.frame PAD_BUTTON_X PAD_BUTTON_X, Event.frame 0 0,
    Event.sample (-85) 0 1000, Event.sample 0 0 1000, Event.sample 85 0 16000,
    Event.sample 0 0 40000, Event.frame 0 0, Event.frame 0 0, Event.frame 0 0, Event.frame 0 0,
    Event.frame 0 0, Event.sample (-85) 0 1000, Event.sample 0 0 40000]

/-- The time the UCF pass subtracts over the `n` slots `i, i + 1, ...`: `timeDiffUs` of every
slot whose look-ahead sample makes the pair move more than 75 units (exact sum, no
wrap-around). -/
def ucfCorrection (cap : Nat) (d : WaveformData) : Nat → Nat → Nat
  | 0, _ => 0
  | n + 1, i =>
    (match ucfLookahead cap d cap i 0 with
      | some nextPollIndex => if ucfConverts d i nextPollIndex then (d.data i).timeDiffUs else 0
      | none => 0) + ucfCorrection cap d n (i + 1)

/-- A reversal through the dash zone: the slots 1 and 2 are in the zone, the stick then moves
on to `x = -127`. -/
def dashbackExample : WaveformData :=
  bufferOf [⟨80, 0, 1000⟩, ⟨50, 0, 2000⟩, ⟨30, 0, 3000⟩, ⟨-10, 0, 4000⟩, ⟨-127, 0, 5000⟩,
    ⟨-127, 0, 20000⟩, ⟨0, 0, 1000⟩]

/-- The sample is in the dash range: `ax >= 64 || ax <= -64`, that is `|x| >= 64`. -/
def inDashRange (ax : Int) : Bool :=
  decide (ax ≥ 64 ∨ ax ≤ -64)

/-- The sample hits 80: `ax >= 80 || ax <= -80`, that is `|x| >= 80`. -/
def hits80 (ax : Int) : Bool :=
  decide (ax ≥ 80 ∨ ax ≤ -80)

/-- The shape a pivot has in the slots `[0, top]`: the last dash-range run is `(g, e]`, the
gap before it is `(f, g]`, and the dash-range run before the gap ends at `f`. -/
def PivotShape (d : WaveformData) (top e g f : Nat) : Prop :=
  f < g ∧ g < e ∧ e ≤ top ∧
  (∀ k, e < k → k ≤ top → inDashRange (d.data k).ax = false) ∧
  (∀ k, g < k → k ≤ e → inDashRange (d.data k).ax = true) ∧
  (∀ k, f < k → k ≤ g → inDashRange (d.data k).ax = false) ∧
  inDashRange (d.data f).ax = true

/-- What a successful PIVOT scan of the slots `[0, top]` has found. -/
def PivotFound (d : WaveformData) (top : Nat) (st : PivotScan) : Prop :=
  ∃ e g f f1 : Nat, PivotShape d top e g f ∧
    st.pivotEndIndex = (e : Int) ∧ st.pivotStartIndex = (g : Int) + 1 ∧
    st.pivotStartSign = (d.data f).ax ∧
    (∃ k, g < k ∧ k ≤ e ∧ hits80 (d.data k).ax = true) ∧
    f1 ≤ f ∧ (∀ k, f1 ≤ k → k ≤ f → inDashRange (d.data k).ax = true) ∧
    hits80 (d.data f1).ax = true

/-- The state of the PIVOT scan of the slots `[0, top]` when the slots above `i` have been
visited without leaving the loop: nothing found yet; inside the last run; inside the gap;
inside the run before the gap. -/
def PivotPhase (d : WaveformData) (top i : Nat) (st : PivotScan) : Prop :=
  (st = pivotInit ∧ ∀ k, i < k → k ≤ top → inDashRange (d.data k).ax = false) ∨
  (∃ e : Nat, ∃ h : Bool, i < e ∧ e ≤ top ∧
    st = ⟨h, false, false, false, -1, (e : Int), 0⟩ ∧
    (∀ k, e < k → k ≤ top → inDashRange (d.data k).ax = false) ∧
    (∀ k, i < k → k ≤ e → inDashRange (d.data k).ax = true) ∧
    (h = true → ∃ k, i < k ∧ k ≤ e ∧ hits80 (d.data k).ax = true)) ∨
  (∃ e g : Nat, i < g ∧ g < e ∧ e ≤ top ∧
    st = ⟨true, false, true, false, (g : Int) + 1, (e : Int), 0⟩ ∧
    (∀ k, e < k → k ≤ top → inDashRange (d.data k).ax = false) ∧
    (∀ k, g < k → k ≤ e → inDashRange (d.data k).ax = true) ∧
    (∀ k, i < k → k ≤ g → inDashRange (d.data k).ax = false) ∧
    (∃ k, g < k ∧ k ≤ e ∧ hits80 (d.data k).ax = true)) ∨
  (∃ e g f : Nat, i < f ∧ PivotShape d top e g f ∧
    st = ⟨true, false, true, true, (g : Int) + 1, (e : Int), (d.data f).ax⟩ ∧
    (∀ k, i < k → k ≤ f → inDashRange (d.data k).ax = true) ∧
    (∃ k, g < k ∧ k ≤ e ∧ hits80 (d.data k).ax = true))

/-- A single capture with the PIVOT test selected: the setup pass, a pass with X pressed and
one with all buttons released; then `(-85, 0)` and 40 ms at rest. -/
def oneCapture : List Event :=
  [Event.frame 0 0, Event.frame PAD_BUTTON_X PAD_BUTTON_X, Event.frame 0 0,
    Event.sample (-85) 0 1000, Event.sample 0 0 40000]

/-- Two captures in a row with the DASHBACK test selected: the setup pass, X pressed and
released twice; `(30, 0), (40, 0), (60, 0)` and 40 ms at rest; five main-loop passes for the
cooldown; then `(30, 0)` and one sample at rest, which ends the capture at once because
`timeStickInOrigin` still holds the 40 ms of the first capture. -/
def dashTwoCaptures : List Event :=
  [Event.frame 0 0, Event.frame PAD_BUTTON_X PAD_BUTTON_X, Event.frame 0 0,
    Event.frame PAD_BUTTON_X PAD_BUTTON_X, Event.frame 0 0,
    Event.sample 30 0 1000, Event.sample 40 0 1000, Event.sample 60 0 20000,
    Event.sample 0 0 40000, Event.frame 0 0, Event.frame 0 0, Event.frame 0 0, Event.frame 0 0,
    Event.frame 0 0, Event.sample 30 0 1000, Event.sample 0 0 1000]

/-! # Theorems -/

/-! ## C1: the IDLE transition rule -/

theorem outsideThreshold_iff (x y : Int) :
    outsideThreshold x y = true ↔ (5 < |x| ∨ 5 < |y|) := by
  simp only [outsideThreshold, STICK_MOVEMENT_THRESHOLD, decide_eq_true_eq, lt_abs]
  constructor
  · rintro ((h | h) | h | h)
    · exact Or.inl (Or.inl h)
    · exact Or.inl (Or.inr (by omega))
    · exact Or.inr (Or.inl h)
    · exact Or.inr (Or.inr (by omega))
  · rintro ((h | h) | h | h)
    · exact Or.inl (Or.inl h)
    · exact Or.inl (Or.inr (by omega))
    · exact Or.inr (Or.inl h)
    · exact Or.inr (Or.inr (by omega))

theorem nearOrigin_iff (x y : Int) :
    nearOrigin x y = true ↔ (|x| < 5 ∧ |y| < 5) := by
  simp only [nearOrigin, STICK_MOVEMENT_THRESHOLD, decide_eq_true_eq, abs_lt]
  constructor
  · rintro ⟨⟨h1, h2⟩, h3, h4⟩
    exact ⟨⟨by omega, h1⟩, by omega, h3⟩
  · rintro ⟨⟨h1, h2⟩, h3, h4⟩
    exact ⟨⟨h2, by omega⟩, h4, by omega⟩

/-- A sample that is not outside the threshold leaves an idle machine untouched. -/
theorem callback_idle_inside (cap : Nat) (s : OscState) (hmove : s.stickMove = false)
    (x y : Int) (dt : Nat) (h : outsideThreshold x y = false) :
    oscilloscopeCallback cap s x y dt = some s := by
  unfold oscilloscopeCallback
  by_cases hl : s.oState ≠ OSCILLOSCOPE_STATE.POST_INPUT_LOCK
  · simp [hl, hmove, h]
  · simp [hl]

/-- A sample outside the threshold starts a capture on an idle, unlocked machine. -/
theorem callback_idle_outside (cap : Nat) (hcap : 0 < cap) (s : OscState)
    (hmove : s.stickMove = false) (hlock : s.oState ≠ OSCILLOSCOPE_STATE.POST_INPUT_LOCK)
    (x y : Int) (dt : Nat) (h : outsideThreshold x y = true) :
    oscilloscopeCallback cap s x y dt =
      some { s with
        stickMove := true
        data := { s.data with data := setAt s.data.data 0 ⟨x, y, dt⟩, endPoint := 1 }
        oState := OSCILLOSCOPE_STATE.PRE_INPUT } := by
  unfold oscilloscopeCallback
  simp [hlock, hmove, h, hcap]

/-- Samples that stay below the threshold keep an idle machine in the same state. -/
theorem runSamples_idle_inside (cap : Nat) (s : OscState) (hmove : s.stickMove = false)
    (l : List WaveformDatapoint) (h : ∀ p ∈ l, outsideThreshold p.ax p.ay = false) :
    runSamples cap s l = some s := by
  induction l with
  | nil => rfl
  | cons p ps ih =>
    have hp := h p (List.mem_cons_self _ _)
    simp only [runSamples, callback_idle_inside cap s hmove p.ax p.ay p.timeDiffUs hp]
    exact ih (fun q hq => h q (List.mem_cons_of_mem _ hq))

/-- C1. IDLE transition rule of `oscilloscopeCallback`: with `stickMove` false and the state
not `POST_INPUT_LOCK`, a sample with `|x| > 5` or `|y| > 5` starts the recording, is stored
as `samples[0]` and sets the count to 1; any other sample leaves the whole state unchanged.
Hence every sequence of samples with `|x| < 5` and `|y| < 5` leaves the initial state as it
is: idle (`PRE_INPUT`, `stickMove` false) with count 0. -/
theorem idle_transition_rule (cap : Nat) (hcap : 0 < cap) (s : OscState)
    (hmove : s.stickMove = false) (hlock : s.oState ≠ OSCILLOSCOPE_STATE.POST_INPUT_LOCK)
    (x y : Int) (dt : Nat) :
    ((5 < |x| ∨ 5 < |y|) →
      ∃ s1, oscilloscopeCallback cap s x y dt = some s1 ∧ s1.stickMove = true ∧
        s1.oState = OSCILLOSCOPE_STATE.PRE_INPUT ∧
        s1.data.data 0 = ⟨x, y, dt⟩ ∧ s1.data.endPoint = 1) ∧
    (¬ (5 < |x| ∨ 5 < |y|) → oscilloscopeCallback cap s x y dt = some s) ∧
    (∀ l : List WaveformDatapoint, (∀ p ∈ l, |p.ax| < 5 ∧ |p.ay| < 5) →
      runSamples cap initState l = some initState ∧ initState.stickMove = false ∧
        initState.oState = OSCILLOSCOPE_STATE.PRE_INPUT ∧ initState.data.endPoint = 0) := by
  refine ⟨?_, ?_, ?_⟩
  · intro h
    have ho := (outsideThreshold_iff x y).2 h
    exact ⟨_, callback_idle_outside cap hcap s hmove hlock x y dt ho, rfl, rfl,
      by simp [setAt], rfl⟩
  · intro h
    apply callback_idle_inside cap s hmove
    cases ho : outsideThreshold x y
    · rfl
    · exact absurd ((outsideThreshold_iff x y).1 ho) h
  · intro l hl
    refine ⟨runSamples_idle_inside cap initState rfl l ?_, rfl, rfl, rfl⟩
    intro p hp
    cases ho : outsideThreshold p.ax p.ay
    · rfl
    · have h1 := (outsideThreshold_iff p.ax p.ay).1 ho
      have h2 := hl p hp
      rcases h1 with h1 | h1
      · exact absurd h1 (not_lt.2 (le_of_lt h2.1))
      · exact absurd h1 (not_lt.2 (le_of_lt h2.2))

/-- Witness for C1: the single sample `x = 10`, `y = 0` starts the recording from the
initial state and becomes `samples[0]`. -/
theorem idle_transition_rule_witness :
    ∃ s1, oscilloscopeCallback WAVEFORM_SAMPLES initState 10 0 1000 = some s1 ∧
      s1.stickMove = true ∧ s1.oState = OSCILLOSCOPE_STATE.PRE_INPUT ∧
      s1.data.data 0 = ⟨10, 0, 1000⟩ ∧ s1.data.endPoint = 1 :=
  (idle_transition_rule WAVEFORM_SAMPLES (by decide) initState rfl (by decide) 10 0 1000).1
    (Or.inl (by decide))

/-! ## The recording phase (C2, C3) -/

theorem atRest_eq_nearOrigin (p : WaveformDatapoint) : atRest p = nearOrigin p.ax p.ay := by
  cases h : nearOrigin p.ax p.ay
  · cases h2 : atRest p
    · rfl
    · have := (nearOrigin_iff p.ax p.ay).2 (by simpa [atRest] using h2)
      rw [h] at this
      exact absurd this (by decide)
  · have := (nearOrigin_iff p.ax p.ay).1 h
    simp [atRest, this]

theorem streakSum_nil : streakSum [] = 0 := rfl

theorem streakSum_append_singleton (l : List WaveformDatapoint) (a : WaveformDatapoint) :
    streakSum (l ++ [a]) = if atRest a then streakSum l + a.timeDiffUs else 0 := by
  unfold streakSum currentStreak
  rw [List.reverse_append, List.reverse_singleton, List.singleton_append, List.takeWhile_cons]
  by_cases h : atRest a = true
  · simp [h, Nat.add_comm]
  · simp [h]

theorem fillFrom_append_singleton (a : Nat → WaveformDatapoint) (i : Nat)
    (l : List WaveformDatapoint) (p : WaveformDatapoint) :
    fillFrom a i (l ++ [p]) = setAt (fillFrom a i l) (i + l.length) p := by
  induction l generalizing a i with
  | nil => simp [fillFrom]
  | cons q qs ih =>
    have e : (q :: qs) ++ [p] = q :: (qs ++ [p]) := rfl
    rw [e]
    simp only [fillFrom, List.length_cons]
    rw [ih, Nat.add_assoc, Nat.add_comm 1 qs.length]

theorem fillFrom_outside (a : Nat → WaveformDatapoint) (i : Nat) (l : List WaveformDatapoint)
    (k : Nat) (hk : k < i ∨ i + l.length ≤ k) : fillFrom a i l k = a k := by
  induction l generalizing a i with
  | nil => rfl
  | cons q qs ih =>
    simp only [fillFrom]
    rw [ih]
    · simp only [setAt]
      have : k ≠ i := by
        simp only [List.length_cons] at hk
        omega
      simp [this]
    · simp only [List.length_cons] at hk
      omega

theorem fillFrom_inside (a : Nat → WaveformDatapoint) (i : Nat) (l : List WaveformDatapoint)
    (k : Nat) (hk : k < l.length) : l[k]? = some (fillFrom a i l (i + k)) := by
  induction l generalizing a i k with
  | nil => simp at hk
  | cons q qs ih =>
    cases k with
    | zero =>
      simp only [fillFrom, Nat.add_zero, List.getElem?_cons_zero]
      rw [fillFrom_outside _ _ _ _ (Or.inl (Nat.lt_succ_self i))]
      simp [setAt]
    | succ k =>
      simp only [fillFrom, List.getElem?_cons_succ]
      simp only [List.length_cons] at hk
      have := ih (setAt a i q) (i + 1) k (by omega)
      rw [this]
      congr 2
      omega

theorem runSamples_append (cap : Nat) (s : OscState) (l1 l2 : List WaveformDatapoint) :
    runSamples cap s (l1 ++ l2) =
      match runSamples cap s l1 with
      | none => none
      | some s1 => runSamples cap s1 l2 := by
  induction l1 generalizing s with
  | nil => rfl
  | cons p ps ih =>
    simp only [List.cons_append, runSamples]
    cases oscilloscopeCallback cap s p.ax p.ay p.timeDiffUs with
    | none => rfl
    | some s1 => exact ih s1

/-- One callback in the middle of the first capture: the sample is appended, the accumulator
follows the streak, and the capture ends exactly when the buffer is full or the accumulator
has reached 40 ms. -/
theorem callback_recording (cap t0 : Nat) (first : WaveformDatapoint)
    (pre : List WaveformDatapoint) (a : WaveformDatapoint)
    (hroom : pre.length + 1 < cap) (hacc : streakSum pre < 40000)
    (hdt : atRest a = true → a.timeDiffUs + 40000 ≤ U64_MOD) :
    oscilloscopeCallback cap (recordingState t0 first pre) a.ax a.ay a.timeDiffUs =
      some (if pre.length + 2 = cap ∨ 40000 ≤ streakSum (pre ++ [a])
        then endedState t0 first (pre ++ [a]) else recordingState t0 first (pre ++ [a])) := by
  have hfill : setAt (fillFrom zeroData 0 (first :: pre)) (pre.length + 1) a =
      fillFrom zeroData 0 (first :: (pre ++ [a])) := by
    have := fillFrom_append_singleton zeroData 0 (first :: pre) a
    simp only [List.cons_append, List.length_cons, Nat.zero_add] at this
    rw [this]
  have hsum : (if nearOrigin a.ax a.ay = true
      then (streakSum pre + a.timeDiffUs) % U64_MOD else 0) = streakSum (pre ++ [a]) := by
    rw [streakSum_append_singleton, atRest_eq_nearOrigin]
    by_cases h : nearOrigin a.ax a.ay = true
    · have h2 := hdt (by rw [atRest_eq_nearOrigin]; exact h)
      simp only [h, if_true]
      apply Nat.mod_eq_of_lt
      omega
    · simp [h]
  have hdiv : ∀ n : Nat, n / 1000 ≥ 40 ↔ 40000 ≤ n := by
    intro n
    omega
  unfold oscilloscopeCallback
  simp only [recordingState, initStateWith, ne_eq, reduceCtorEq, not_false_eq_true, if_true,
    hroom, hsum, hfill, hdiv]
  have e1 : pre.length + 1 + 1 = cap ↔ pre.length + 2 = cap := by omega
  by_cases hend : pre.length + 2 = cap ∨ 40000 ≤ streakSum (pre ++ [a])
  · simp only [e1, hend, if_true, endedState, initStateWith, List.length_append,
      List.length_singleton]
  · simp only [e1, hend, if_false, List.length_append, List.length_singleton]

/-- The first capture, as long as neither stop condition has been met: the machine is in
`recordingState`. -/
theorem runSamples_recording (cap t0 : Nat) (first : WaveformDatapoint)
    (hfirst : outsideThreshold first.ax first.ay = true) (rest : List WaveformDatapoint)
    (hroom : rest.length + 1 < cap)
    (hacc : ∀ k ≤ rest.length, streakSum (rest.take k) < 40000)
    (hdt : ∀ b ∈ rest, atRest b = true → b.timeDiffUs + 40000 ≤ U64_MOD) :
    runSamples cap (initStateWith t0) (first :: rest) = some (recordingState t0 first rest) := by
  induction rest using List.reverseRecOn with
  | nil =>
    simp only [runSamples]
    rw [callback_idle_outside cap (by omega) (initStateWith t0) rfl (by simp [initStateWith])
      first.ax first.ay first.timeDiffUs hfirst]
    rfl
  | append_singleton pre a ih =>
    simp only [List.length_append, List.length_singleton] at hroom hacc
    have e : first :: (pre ++ [a]) = (first :: pre) ++ [a] := rfl
    rw [e, runSamples_append]
    have hpre : runSamples cap (initStateWith t0) (first :: pre) =
        some (recordingState t0 first pre) := by
      apply ih (by omega)
      · intro k hk
        have := hacc k (by omega)
        rwa [List.take_append_of_le_length hk] at this
      · intro b hb
        exact hdt b (List.mem_append_left _ hb)
    rw [hpre]
    simp only [runSamples]
    have hlast : streakSum (pre ++ [a]) < 40000 := by
      have := hacc (pre.length + 1) (le_refl _)
      have e2 : (pre ++ [a]).take (pre.length + 1) = pre ++ [a] := by
        apply List.take_of_length_le
        simp
      rwa [e2] at this
    have hprev : streakSum pre < 40000 := by
      have := hacc pre.length (by omega)
      rwa [List.take_append_of_le_length (le_refl _), List.take_length] at this
    rw [callback_recording cap t0 first pre a (by omega) hprev
      (hdt a (List.mem_append_right _ (List.mem_singleton_self a)))]
    have hne : ¬ (pre.length + 2 = cap ∨ 40000 ≤ streakSum (pre ++ [a])) := by
      omega
    simp only [hne, if_false]

/-- The first capture up to and including the sample `a` that follows the samples `pre`,
none of which has met a stop condition. -/
theorem runSamples_recording_step (cap t0 : Nat) (first : WaveformDatapoint)
    (hfirst : outsideThreshold first.ax first.ay = true) (pre : List WaveformDatapoint)
    (a : WaveformDatapoint) (hroom : pre.length + 1 < cap)
    (hacc : ∀ k ≤ pre.length, streakSum (pre.take k) < 40000)
    (hdt : ∀ b ∈ pre ++ [a], atRest b = true → b.timeDiffUs + 40000 ≤ U64_MOD) :
    runSamples cap (initStateWith t0) (first :: (pre ++ [a])) =
      some (if pre.length + 2 = cap ∨ 40000 ≤ streakSum (pre ++ [a])
        then endedState t0 first (pre ++ [a]) else recordingState t0 first (pre ++ [a])) := by
  have e : first :: (pre ++ [a]) = (first :: pre) ++ [a] := rfl
  rw [e, runSamples_append, runSamples_recording cap t0 first hfirst pre hroom hacc
    (fun b hb => hdt b (List.mem_append_left _ hb))]
  simp only [runSamples]
  have hprev : streakSum pre < 40000 := by
    have := hacc pre.length (le_refl _)
    rwa [List.take_length] at this
  rw [callback_recording cap t0 first pre a hroom hprev
    (hdt a (List.mem_append_right _ (List.mem_singleton_self a)))]

/-- Samples below the threshold in front of a capture do not change what follows. -/
theorem runSamples_idle_prefix (cap t0 : Nat) (idle l : List WaveformDatapoint)
    (hidle : ∀ p ∈ idle, ¬ (5 < |p.ax| ∨ 5 < |p.ay|)) :
    runSamples cap (initStateWith t0) (idle ++ l) = runSamples cap (initStateWith t0) l := by
  rw [runSamples_append, runSamples_idle_inside cap (initStateWith t0) rfl idle]
  intro p hp
  cases ho : outsideThreshold p.ax p.ay
  · rfl
  · exact absurd ((outsideThreshold_iff p.ax p.ay).1 ho) (hidle p hp)

/-- C2. Origin-rest timeout, for the first capture: from the initial state, samples `idle`
below the threshold, then the sample `first` that starts the capture.  Let `pre` be the
samples recorded after `first`, none of which has met a stop condition, let `a` be the next
sample, and let no time delta be within 40000 of `2 ^ 64`.  Then after `pre` the machine is
still recording and its accumulator is the sum of `timeDiffUs` over the current unbroken
streak of samples with `|x| < 5` and `|y| < 5`; the sample `a` is appended and updates the
accumulator in the same way (a sample with `|x| >= 5` or `|y| >= 5` resets it to 0); the
capture ends at `a` (data ready, recording stopped, `POST_INPUT_LOCK` with cooldown 5) if
the streak sum has reached 40000, with the count below the capacity when the buffer has not
become full; and it does not end at `a` if the sum is below 40000 and the buffer is not
full. -/
theorem origin_rest_timeout (cap t0 : Nat) (idle : List WaveformDatapoint)
    (hidle : ∀ p ∈ idle, ¬ (5 < |p.ax| ∨ 5 < |p.ay|)) (first : WaveformDatapoint)
    (hfirst : 5 < |first.ax| ∨ 5 < |first.ay|) (pre : List WaveformDatapoint)
    (a : WaveformDatapoint) (hroom : pre.length + 1 < cap)
    (hacc : ∀ k ≤ pre.length, streakSum (pre.take k) < 40000)
    (hdt : ∀ b ∈ pre ++ [a], b.timeDiffUs + 40000 ≤ U64_MOD) :
    ∃ s s1, runSamples cap (initStateWith t0) (idle ++ first :: pre) = some s ∧
      s.stickMove = true ∧ s.data.isDataReady = false ∧ s.data.endPoint = pre.length + 1 ∧
      s.timeStickInOrigin = streakSum pre ∧
      oscilloscopeCallback cap s a.ax a.ay a.timeDiffUs = some s1 ∧
      runSamples cap (initStateWith t0) (idle ++ first :: (pre ++ [a])) = some s1 ∧
      s1.data.endPoint = pre.length + 2 ∧
      s1.timeStickInOrigin = streakSum (pre ++ [a]) ∧
      (¬ (|a.ax| < 5 ∧ |a.ay| < 5) → s1.timeStickInOrigin = 0) ∧
      ((|a.ax| < 5 ∧ |a.ay| < 5) → s1.timeStickInOrigin = s.timeStickInOrigin + a.timeDiffUs) ∧
      (40000 ≤ streakSum (pre ++ [a]) →
        s1.data.isDataReady = true ∧ s1.stickMove = false ∧
        s1.oState = OSCILLOSCOPE_STATE.POST_INPUT_LOCK ∧ s1.stickCooldown = 5 ∧
        (pre.length + 2 < cap → s1.data.endPoint < cap)) ∧
      (streakSum (pre ++ [a]) < 40000 → pre.length + 2 < cap →
        s1.stickMove = true ∧ s1.data.isDataReady = false) := by
  have hfirst1 := (outsideThreshold_iff first.ax first.ay).2 hfirst
  have hprev : streakSum pre < 40000 := by
    have := hacc pre.length (le_refl _)
    rwa [List.take_length] at this
  have hs := runSamples_recording cap t0 first hfirst1 pre hroom hacc
    (fun b hb _ => hdt b (List.mem_append_left _ hb))
  have hc := callback_recording cap t0 first pre a hroom hprev
    (fun _ => hdt a (List.mem_append_right _ (List.mem_singleton_self a)))
  have hs1 := runSamples_recording_step cap t0 first hfirst1 pre a hroom hacc
    (fun b hb _ => hdt b hb)
  have hstreak := streakSum_append_singleton pre a
  rw [← runSamples_idle_prefix cap t0 idle _ hidle] at hs hs1
  refine ⟨_, _, hs, rfl, rfl, rfl, rfl, hc, hs1, ?_, ?_, ?_, ?_, ?_, ?_⟩
  · split <;> simp [endedState, recordingState]
  · split <;> rfl
  · intro hrest
    have : atRest a = false := by simpa [atRest] using hrest
    rw [this] at hstreak
    split <;> simpa [endedState, recordingState] using hstreak
  · intro hrest
    have : atRest a = true := by simpa [atRest] using hrest
    rw [this] at hstreak
    split <;> simpa [endedState, recordingState] using hstreak
  · intro hend
    have : pre.length + 2 = cap ∨ 40000 ≤ streakSum (pre ++ [a]) := Or.inr hend
    simp only [this, if_true]
    refine ⟨rfl, rfl, rfl, rfl, ?_⟩
    intro h
    simp only [endedState, List.length_append, List.length_singleton]
    omega
  · intro hlt hfree
    have : ¬ (pre.length + 2 = cap ∨ 40000 ≤ streakSum (pre ++ [a])) := by omega
    simp only [this, if_false]
    exact ⟨rfl, rfl⟩

/-- Witness for C2: after a sample below the threshold, the start sample `(10, 0)` and one
resting sample of 20 ms, a second resting sample of 20 ms brings the streak to 40 ms and
ends the capture with three samples, far below the capacity. -/
theorem origin_rest_timeout_witness :
    streakSum [⟨0, 0, 20000⟩] < 40000 ∧ 40000 ≤ streakSum [⟨0, 0, 20000⟩, ⟨0, 0, 20000⟩] ∧
    ∃ s1, runSamples WAVEFORM_SAMPLES initState
        [⟨3, -2, 500⟩, ⟨10, 0, 1000⟩, ⟨0, 0, 20000⟩, ⟨0, 0, 20000⟩] = some s1 ∧
      s1.data.isDataReady = true ∧ s1.stickMove = false ∧
      s1.oState = OSCILLOSCOPE_STATE.POST_INPUT_LOCK ∧ s1.stickCooldown = 5 ∧
      s1.data.endPoint = 3 ∧ s1.timeStickInOrigin = 40000 := by
  have hsum : streakSum [⟨0, 0, 20000⟩, ⟨0, 0, 20000⟩] = 40000 := by decide
  have hsum1 : streakSum [⟨0, 0, 20000⟩] = 20000 := by decide
  obtain ⟨s, s1, _, _, _, _, _, _, hrun, hcount, hacc, _, _, hend, _⟩ :=
    origin_rest_timeout WAVEFORM_SAMPLES 0 [⟨3, -2, 500⟩] (by decide) ⟨10, 0, 1000⟩
      (Or.inl (by decide)) [⟨0, 0, 20000⟩] ⟨0, 0, 20000⟩ (by decide) (by decide) (by decide)
  have h := hend (by rw [List.singleton_append, hsum])
  refine ⟨by rw [hsum1]; decide, by rw [hsum], s1, hrun, h.1, h.2.1, h.2.2.1, h.2.2.2.1, hcount, ?_⟩
  rw [hacc]
  exact hsum

/-! ## C3: the hard cap -/

theorem streakSum_eq_zero (l : List WaveformDatapoint) (h : ∀ p ∈ l, atRest p = false) :
    streakSum l = 0 := by
  induction l using List.reverseRecOn with
  | nil => rfl
  | append_singleton pre a _ =>
    rw [streakSum_append_singleton, h a (List.mem_append_right _ (List.mem_singleton_self a))]
    rfl

theorem atRest_eq_false_of_away (p : WaveformDatapoint) (h : 5 ≤ |p.ax| ∨ 5 ≤ |p.ay|) :
    atRest p = false := by
  simp only [atRest, decide_eq_false_iff_not, not_and, not_lt]
  intro h1
  rcases h with h | h
  · exact absurd h (not_le.2 h1)
  · exact h

/-- The first capture when no sample of `rest` is at rest and the buffer is not yet full. -/
theorem runSamples_away (cap t0 : Nat) (first : WaveformDatapoint)
    (hfirst : outsideThreshold first.ax first.ay = true) (rest : List WaveformDatapoint)
    (hroom : rest.length + 1 < cap) (hall : ∀ p ∈ rest, atRest p = false) :
    runSamples cap (initStateWith t0) (first :: rest) = some (recordingState t0 first rest) := by
  apply runSamples_recording cap t0 first hfirst rest hroom
  · intro k _
    rw [streakSum_eq_zero _ (fun p hp => hall p (List.mem_of_mem_take hp))]
    decide
  · intro b hb hrest
    rw [hall b hb] at hrest
    exact absurd hrest (by decide)

/-- The first capture when no sample is at rest and the last one fills the buffer. -/
theorem runSamples_full (cap t0 : Nat) (first : WaveformDatapoint)
    (hfirst : outsideThreshold first.ax first.ay = true) (rest : List WaveformDatapoint)
    (hne : rest ≠ []) (hlen : rest.length + 1 = cap) (hall : ∀ p ∈ rest, atRest p = false) :
    runSamples cap (initStateWith t0) (first :: rest) = some (endedState t0 first rest) := by
  rcases List.eq_nil_or_concat rest with h | ⟨pre, a, h⟩
  · exact absurd h hne
  · rw [List.concat_eq_append] at h
    subst h
    simp only [List.length_append, List.length_singleton] at hlen
    rw [runSamples_recording_step cap t0 first hfirst pre a (by omega)]
    · have : pre.length + 2 = cap ∨ 40000 ≤ streakSum (pre ++ [a]) := Or.inl (by omega)
      simp only [this, if_true]
    · intro k _
      rw [streakSum_eq_zero _ (fun p hp =>
        hall p (List.mem_append_left _ (List.mem_of_mem_take hp)))]
      decide
    · intro b hb hrest
      rw [hall b hb] at hrest
      exact absurd hrest (by decide)

/-- C3. Hard cap: from the initial state, a sequence of exactly `cap` samples (`cap >= 2`
being the capacity `WAVEFORM_SAMPLES`), each with `|x| >= 5` or `|y| >= 5` and the first
with `|x| > 5` or `|y| > 5`, ends the capture at the last sample: data ready, state
`POST_INPUT_LOCK`, count equal to the capacity and `samples[k]` the k-th input for every
`k` below the capacity.  After every shorter prefix the capture has not ended, and no slot
at or beyond the capacity is ever written (no call stores out of bounds, those slots keep
their initial content). -/
theorem hard_cap (cap t0 : Nat) (hcap : 2 ≤ cap) (l : List WaveformDatapoint)
    (hlen : l.length = cap) (hall : ∀ p ∈ l, 5 ≤ |p.ax| ∨ 5 ≤ |p.ay|)
    (hfirst : ∀ p, l.head? = some p → 5 < |p.ax| ∨ 5 < |p.ay|) :
    (∃ s, runSamples cap (initStateWith t0) l = some s ∧ s.data.isDataReady = true ∧
      s.oState = OSCILLOSCOPE_STATE.POST_INPUT_LOCK ∧ s.stickMove = false ∧
      s.data.endPoint = cap ∧ (∀ k < cap, l[k]? = some (s.data.data k)) ∧
      (∀ k, cap ≤ k → s.data.data k = zeroData k)) ∧
    (∀ n < cap, ∃ s, runSamples cap (initStateWith t0) (l.take n) = some s ∧
      s.data.isDataReady = false ∧ s.data.endPoint = n ∧
      (∀ k < n, l[k]? = some (s.data.data k)) ∧
      (∀ k, cap ≤ k → s.data.data k = zeroData k)) := by
  cases l with
  | nil => simp at hlen; omega
  | cons first rest =>
    simp only [List.length_cons] at hlen
    have hfirst1 := (outsideThreshold_iff first.ax first.ay).2 (hfirst first rfl)
    have hrest : ∀ p ∈ rest, atRest p = false := fun p hp =>
      atRest_eq_false_of_away p (hall p (List.mem_cons_of_mem _ hp))
    have hne : rest ≠ [] := by
      intro h
      rw [h] at hlen
      simp at hlen
      omega
    refine ⟨⟨_, runSamples_full cap t0 first hfirst1 rest hne hlen hrest, rfl, rfl, rfl,
      by simp [endedState, hlen], ?_, ?_⟩, ?_⟩
    · intro k hk
      have := fillFrom_inside zeroData 0 (first :: rest) k (by simp; omega)
      rw [Nat.zero_add] at this
      exact this
    · intro k hk
      exact fillFrom_outside zeroData 0 (first :: rest) k (Or.inr (by simp; omega))
    · intro n hn
      cases n with
      | zero =>
        exact ⟨initStateWith t0, rfl, rfl, rfl, fun k hk => absurd hk (Nat.not_lt_zero k),
          fun _ _ => rfl⟩
      | succ m =>
        have hm : (rest.take m).length = m := by
          rw [List.length_take]
          omega
        refine ⟨_, runSamples_away cap t0 first hfirst1 (rest.take m) (by omega)
          (fun p hp => hrest p (List.mem_of_mem_take hp)), rfl, by simp [recordingState, hm],
          ?_, ?_⟩
        · intro k hk
          have h1 := fillFrom_inside zeroData 0 (first :: rest.take m) k (by simp [hm]; omega)
          rw [Nat.zero_add] at h1
          have h2 : (first :: rest.take m)[k]? = (first :: rest)[k]? := by
            rw [← List.take_succ_cons, List.getElem?_take_of_lt hk]
          rw [← h2]
          exact h1
        · intro k hk
          exact fillFrom_outside zeroData 0 (first :: rest.take m) k
            (Or.inr (by simp [hm]; omega))

/-- Witness for C3 with capacity 3: three samples held at `x = 10` fill the buffer. -/
theorem hard_cap_witness :
    (∃ s, runSamples 3 initState [⟨10, 0, 1000⟩, ⟨10, 0, 1000⟩, ⟨10, 0, 1000⟩] = some s ∧
      s.data.isDataReady = true ∧ s.oState = OSCILLOSCOPE_STATE.POST_INPUT_LOCK ∧
      s.stickMove = false ∧ s.data.endPoint = 3 ∧
      (∀ k < 3, [(⟨10, 0, 1000⟩ : WaveformDatapoint), ⟨10, 0, 1000⟩, ⟨10, 0, 1000⟩][k]? =
        some (s.data.data k)) ∧
      (∀ k, 3 ≤ k → s.data.data k = zeroData k)) :=
  (hard_cap 3 0 (by decide) [⟨10, 0, 1000⟩, ⟨10, 0, 1000⟩, ⟨10, 0, 1000⟩] rfl
    (by decide) (by decide)).1

/-! ## C4: what the callback does once a capture is complete -/

/-- Counterexample to C4 as stated: after a finished capture (`(10, 0)` followed by 40 ms at
rest) and five main-loop passes, the state is `POST_INPUT` with the cooldown elapsed; the
next sample `(20, 0)` is not ignored: it overwrites `samples[0]`, sets the count back to 1
and returns the state to `PRE_INPUT` with a new recording under way. -/
theorem complete_state_records_counterexample :
    ∃ s s1, runEvents WAVEFORM_SAMPLES initState
        [Event.frame 0 0, Event.sample 10 0 1000, Event.sample 0 0 40000, Event.frame 0 0,
          Event.frame 0 0, Event.frame 0 0, Event.frame 0 0, Event.frame 0 0] = some s ∧
      s.oState = OSCILLOSCOPE_STATE.POST_INPUT ∧ s.stickCooldown = 0 ∧
      s.data.isDataReady = true ∧ s.stickMove = false ∧ s.data.endPoint = 2 ∧
      s.data.data 0 = ⟨10, 0, 1000⟩ ∧
      oscilloscopeCallback WAVEFORM_SAMPLES s 20 0 500 = some s1 ∧
      s1.data.endPoint = 1 ∧ s1.data.data 0 = ⟨20, 0, 500⟩ ∧
      s1.oState = OSCILLOSCOPE_STATE.PRE_INPUT ∧ s1.stickMove = true ∧
      s1.data.isDataReady = true :=
  ⟨_, _, rfl, rfl, rfl, rfl, rfl, rfl, rfl, rfl, rfl, rfl, rfl, rfl, rfl⟩

/-- While the state is `POST_INPUT_LOCK` the callback changes nothing. -/
theorem callback_locked (cap : Nat) (s : OscState)
    (hlock : s.oState = OSCILLOSCOPE_STATE.POST_INPUT_LOCK) (x y : Int) (dt : Nat) :
    oscilloscopeCallback cap s x y dt = some s := by
  unfold oscilloscopeCallback
  simp [hlock]

/-- C4, amended.  For every sample `(x, y, dt)`: while the state is `POST_INPUT_LOCK`
(cooldown running, or locked) the sampling step leaves the whole state unchanged.  In
`POST_INPUT` with no recording under way, a sample with `|x| <= 5` and `|y| <= 5` leaves the
whole state unchanged, and a sample with `|x| > 5` or `|y| > 5` starts a new capture:
`samples[0]` becomes the sample, the count becomes 1, the state becomes `PRE_INPUT` with
`stickMove` set, while `isDataReady` and every other entry of `samples` keep their values. -/
theorem complete_state_step (cap : Nat) (hcap : 0 < cap) (s : OscState) (x y : Int) (dt : Nat) :
    (s.oState = OSCILLOSCOPE_STATE.POST_INPUT_LOCK → oscilloscopeCallback cap s x y dt = some s) ∧
    (s.oState = OSCILLOSCOPE_STATE.POST_INPUT → s.stickMove = false →
      ¬ (5 < |x| ∨ 5 < |y|) → oscilloscopeCallback cap s x y dt = some s) ∧
    (s.oState = OSCILLOSCOPE_STATE.POST_INPUT → s.stickMove = false → (5 < |x| ∨ 5 < |y|) →
      ∃ s1, oscilloscopeCallback cap s x y dt = some s1 ∧
        s1.data.data 0 = ⟨x, y, dt⟩ ∧ s1.data.endPoint = 1 ∧
        s1.oState = OSCILLOSCOPE_STATE.PRE_INPUT ∧ s1.stickMove = true ∧
        s1.data.isDataReady = s.data.isDataReady ∧
        ∀ k, k ≠ 0 → s1.data.data k = s.data.data k) := by
  refine ⟨fun hlock => callback_locked cap s hlock x y dt, ?_, ?_⟩
  · intro _ hmove h
    apply callback_idle_inside cap s hmove
    cases ho : outsideThreshold x y
    · rfl
    · exact absurd ((outsideThreshold_iff x y).1 ho) h
  · intro hpost hmove h
    have hlock : s.oState ≠ OSCILLOSCOPE_STATE.POST_INPUT_LOCK := by
      rw [hpost]
      decide
    refine ⟨_, callback_idle_outside cap hcap s hmove hlock x y dt
      ((outsideThreshold_iff x y).2 h), by simp [setAt], rfl, rfl, rfl, rfl, ?_⟩
    intro k hk
    simp [setAt, hk]

/-- Witness for C4 (amended): in a `POST_INPUT` state holding a finished capture, the sample
`(20, 0)` starts a new capture. -/
theorem complete_state_step_witness :
    ∃ s1, oscilloscopeCallback WAVEFORM_SAMPLES
        { endedState 0 ⟨10, 0, 1000⟩ [⟨0, 0, 40000⟩] with
          oState := OSCILLOSCOPE_STATE.POST_INPUT, stickCooldown := 0 } 20 0 500 = some s1 ∧
      s1.data.data 0 = ⟨20, 0, 500⟩ ∧ s1.data.endPoint = 1 ∧
      s1.oState = OSCILLOSCOPE_STATE.PRE_INPUT ∧ s1.stickMove = true := by
  obtain ⟨s1, h1, h2, h3, h4, h5, _⟩ :=
    (complete_state_step WAVEFORM_SAMPLES (by decide)
      { endedState 0 ⟨10, 0, 1000⟩ [⟨0, 0, 40000⟩] with
        oState := OSCILLOSCOPE_STATE.POST_INPUT, stickCooldown := 0 } 20 0 500).2.2
      rfl rfl (Or.inl (by decide))
  exact ⟨s1, h1, h2, h3, h4, h5⟩

/-! ## C5: `totalTimeUs` -/

/-- The possible results of one callback. -/
theorem callback_cases (cap : Nat) (s s1 : OscState) (x y : Int) (dt : Nat)
    (h : oscilloscopeCallback cap s x y dt = some s1) :
    s1 = s ∨
    (s.stickMove = false ∧ 0 < cap ∧
      s1 = { s with
        stickMove := true
        data := { s.data with data := setAt s.data.data 0 ⟨x, y, dt⟩, endPoint := 1 }
        oState := OSCILLOSCOPE_STATE.PRE_INPUT }) ∨
    (s.stickMove = true ∧ s.data.endPoint < cap ∧ ∃ origin : Nat,
      (s1 = { s with
          data := { s.data with data := setAt s.data.data s.data.endPoint ⟨x, y, dt⟩,
                                endPoint := s.data.endPoint + 1, isDataReady := true }
          timeStickInOrigin := origin
          stickMove := false
          display := true
          oState := OSCILLOSCOPE_STATE.POST_INPUT_LOCK
          stickCooldown := MEASURE_COOLDOWN_FRAMES }) ∨
      (s.data.endPoint + 1 ≠ cap ∧
        s1 = { s with
          data := { s.data with data := setAt s.data.data s.data.endPoint ⟨x, y, dt⟩,
                                endPoint := s.data.endPoint + 1 }
          timeStickInOrigin := origin })) := by
  unfold oscilloscopeCallback at h
  by_cases h1 : s.oState ≠ OSCILLOSCOPE_STATE.POST_INPUT_LOCK
  · rw [if_pos h1] at h
    by_cases h2 : s.stickMove = true
    · rw [if_pos h2] at h
      by_cases h3 : s.data.endPoint < cap
      · rw [if_pos h3] at h
        simp only [] at h
        right; right
        refine ⟨h2, h3,
          (if nearOrigin x y = true then (s.timeStickInOrigin + dt) % U64_MOD else 0), ?_⟩
        by_cases h4 : s.data.endPoint + 1 = cap ∨
            (if nearOrigin x y = true then (s.timeStickInOrigin + dt) % U64_MOD else 0) / 1000 ≥ 40
        · rw [if_pos h4] at h
          exact Or.inl (Option.some.inj h).symm
        · rw [if_neg h4] at h
          exact Or.inr ⟨fun h5 => h4 (Or.inl h5), (Option.some.inj h).symm⟩
      · rw [if_neg h3] at h
        cases h
    · rw [if_neg h2] at h
      have h2 : s.stickMove = false := by
        cases hs : s.stickMove
        · rfl
        · exact absurd hs h2
      by_cases h3 : outsideThreshold x y = true
      · rw [if_pos h3] at h
        by_cases h4 : 0 < cap
        · rw [if_pos h4] at h
          exact Or.inr (Or.inl ⟨h2, h4, (Option.some.inj h).symm⟩)
        · rw [if_neg h4] at h
          cases h
      · rw [if_neg h3] at h
        exact Or.inl (Option.some.inj h).symm
  · rw [if_neg h1] at h
    exact Or.inl (Option.some.inj h).symm

/-- The callback never writes `data.totalTimeUs`. -/
theorem callback_totalTimeUs (cap : Nat) (s s1 : OscState) (x y : Int) (dt : Nat)
    (h : oscilloscopeCallback cap s x y dt = some s1) :
    s1.data.totalTimeUs = s.data.totalTimeUs := by
  rcases callback_cases cap s s1 x y dt h with h | ⟨_, _, h⟩ | ⟨_, _, _, h | ⟨_, h⟩⟩ <;>
    rw [h]

theorem cooldownStep_data (s : OscState) : (cooldownStep s).data = s.data := by
  unfold cooldownStep
  dsimp only
  split_ifs <;> rfl

theorem cooldownStep_stickMove (s : OscState) : (cooldownStep s).stickMove = s.stickMove := by
  unfold cooldownStep
  dsimp only
  split_ifs <;> rfl

theorem postInputCase_data (s : OscState) (held : Nat) : (postInputCase s held).data = s.data := by
  unfold postInputCase
  dsimp only
  split_ifs <;> rfl

theorem postInputCase_stickMove (s : OscState) (held : Nat) :
    (postInputCase s held).stickMove = s.stickMove := by
  unfold postInputCase
  dsimp only
  split_ifs <;> rfl

theorem buttonStep_data (s : OscState) (pressed : Nat) : (buttonStep s pressed).data = s.data := by
  unfold buttonStep
  dsimp only
  split_ifs <;> rfl

theorem buttonStep_stickMove (s : OscState) (pressed : Nat) :
    (buttonStep s pressed).stickMove = s.stickMove := by
  unfold buttonStep
  dsimp only
  split_ifs <;> rfl

theorem printInstructions_data (s : OscState) (pressed : Nat) :
    (printInstructions s pressed).data = s.data := by
  unfold printInstructions
  split_ifs <;> rfl

theorem printInstructions_stickMove (s : OscState) (pressed : Nat) :
    (printInstructions s pressed).stickMove = s.stickMove := by
  unfold printInstructions
  split_ifs <;> rfl

/-- A main-loop pass never writes `data`. -/
theorem menu_oscilloscope_data (s : OscState) (pressed held : Nat) :
    (menu_oscilloscope s pressed held).data = s.data := by
  have key : ∀ s1 : OscState, s1.data = s.data →
      (if held = 0 ∧ s1.buttonLock = true then { s1 with buttonLock := false } else s1).data
        = s.data := by
    intro s1 h1
    split_ifs <;> exact h1
  unfold menu_oscilloscope
  apply key
  cases s.state with
  | OSC_SETUP => rfl
  | OSC_POST_SETUP =>
    cases s.oState with
    | PRE_INPUT => exact buttonStep_data _ _
    | POST_INPUT_LOCK =>
      simp only []
      rw [buttonStep_data, postInputCase_data, cooldownStep_data]
    | POST_INPUT =>
      simp only []
      rw [buttonStep_data, postInputCase_data]
  | OSC_INSTRUCTIONS => exact printInstructions_data _ _

/-- A main-loop pass never writes `stickMove`. -/
theorem menu_oscilloscope_stickMove (s : OscState) (pressed held : Nat) :
    (menu_oscilloscope s pressed held).stickMove = s.stickMove := by
  have key : ∀ s1 : OscState, s1.stickMove = s.stickMove →
      (if held = 0 ∧ s1.buttonLock = true then { s1 with buttonLock := false } else s1).stickMove
        = s.stickMove := by
    intro s1 h1
    split_ifs <;> exact h1
  unfold menu_oscilloscope
  apply key
  cases s.state with
  | OSC_SETUP => rfl
  | OSC_POST_SETUP =>
    cases s.oState with
    | PRE_INPUT => exact buttonStep_stickMove _ _
    | POST_INPUT_LOCK =>
      simp only []
      rw [buttonStep_stickMove, postInputCase_stickMove, cooldownStep_stickMove]
    | POST_INPUT =>
      simp only []
      rw [buttonStep_stickMove, postInputCase_stickMove]
  | OSC_INSTRUCTIONS => exact printInstructions_stickMove _ _

/-- No sequence of callbacks and main-loop passes changes `data.totalTimeUs`. -/
theorem runEvents_totalTimeUs (cap : Nat) (es : List Event) (s s1 : OscState)
    (h : runEvents cap s es = some s1) : s1.data.totalTimeUs = s.data.totalTimeUs := by
  induction es generalizing s with
  | nil =>
    cases h
    rfl
  | cons e es ih =>
    simp only [runEvents] at h
    cases hstep : stepEvent cap s e with
    | none =>
      rw [hstep] at h
      cases h
    | some s2 =>
      rw [hstep] at h
      rw [ih s2 h]
      cases e with
      | sample x y dt => exact callback_totalTimeUs cap s s2 x y dt hstep
      | frame pressed held =>
        simp only [stepEvent, Option.some.injEq] at hstep
        rw [← hstep, menu_oscilloscope_data]

/-- The first capture `first, a` when `a` rests for at least 40 ms. -/
theorem runSamples_two (t0 dt0 dt1 : Nat) (hdt : 40000 ≤ dt1) (hfit : dt1 + 40000 ≤ U64_MOD) :
    runSamples WAVEFORM_SAMPLES (initStateWith t0) [⟨10, 0, dt0⟩, ⟨0, 0, dt1⟩] =
      some (endedState t0 ⟨10, 0, dt0⟩ [⟨0, 0, dt1⟩]) := by
  have h := runSamples_recording_step WAVEFORM_SAMPLES t0 ⟨10, 0, dt0⟩ rfl []
    ⟨0, 0, dt1⟩ (by decide) (by decide) (by
      intro b hb _
      simp only [List.nil_append, List.mem_singleton] at hb
      rw [hb]
      exact hfit)
  have hs : streakSum ([] ++ [(⟨0, 0, dt1⟩ : WaveformDatapoint)]) = dt1 := by
    rw [streakSum_append_singleton]
    simp [atRest, streakSum_nil]
  rw [hs] at h
  simp only [List.nil_append, hdt, or_true, if_true] at h
  exact h

/-- C5, the code at the failing input.  Whatever the initial value `t0` of `totalTimeUs`,
the capture `(10, 0, 1000), (0, 0, 40000)` ends with data ready, two samples whose time
deltas sum to 41000, and `totalTimeUs` still `t0`; the capture `(10, 0, 1000), (0, 0, 40001)`
ends likewise with sum 41001 and `totalTimeUs` still `t0`.  So for every `t0` a ready state
is reached in which `totalTimeUs` is not the sum of the recorded time deltas. -/
theorem totalTimeUs_not_maintained (t0 : Nat) :
    (∃ s, runSamples WAVEFORM_SAMPLES (initStateWith t0) [⟨10, 0, 1000⟩, ⟨0, 0, 40000⟩] = some s ∧
      s.data.isDataReady = true ∧ s.data.endPoint = 2 ∧ sumTimeDiff s.data = 41000 ∧
      s.data.totalTimeUs = t0) ∧
    (∃ s, runSamples WAVEFORM_SAMPLES (initStateWith t0) [⟨10, 0, 1000⟩, ⟨0, 0, 40001⟩] = some s ∧
      s.data.isDataReady = true ∧ s.data.endPoint = 2 ∧ sumTimeDiff s.data = 41001 ∧
      s.data.totalTimeUs = t0) ∧
    ∃ l s, runSamples WAVEFORM_SAMPLES (initStateWith t0) l = some s ∧
      s.data.isDataReady = true ∧ s.data.totalTimeUs ≠ sumTimeDiff s.data := by
  have h1 : ∃ s, runSamples WAVEFORM_SAMPLES (initStateWith t0)
      [⟨10, 0, 1000⟩, ⟨0, 0, 40000⟩] = some s ∧
      s.data.isDataReady = true ∧ s.data.endPoint = 2 ∧ sumTimeDiff s.data = 41000 ∧
      s.data.totalTimeUs = t0 :=
    ⟨_, runSamples_two t0 1000 40000 (by decide) (by decide), rfl, rfl,
      by simp [sumTimeDiff, endedState, fillFrom, setAt, List.range, List.range.loop], rfl⟩
  have h2 : ∃ s, runSamples WAVEFORM_SAMPLES (initStateWith t0)
      [⟨10, 0, 1000⟩, ⟨0, 0, 40001⟩] = some s ∧
      s.data.isDataReady = true ∧ s.data.endPoint = 2 ∧ sumTimeDiff s.data = 41001 ∧
      s.data.totalTimeUs = t0 :=
    ⟨_, runSamples_two t0 1000 40001 (by decide) (by decide), rfl, rfl,
      by simp [sumTimeDiff, endedState, fillFrom, setAt, List.range, List.range.loop], rfl⟩
  refine ⟨h1, h2, ?_⟩
  by_cases ht : t0 = 41000
  · obtain ⟨s, hs, hr, _, hsum, htot⟩ := h2
    exact ⟨_, s, hs, hr, by rw [hsum, htot, ht]; decide⟩
  · obtain ⟨s, hs, hr, _, hsum, htot⟩ := h1
    exact ⟨_, s, hs, hr, by rw [hsum, htot]; exact ht⟩

/-! ## C6: Snapback -/

theorem cooldownStep_dataScrollOffset (s : OscState) :
    (cooldownStep s).dataScrollOffset = s.dataScrollOffset := by
  unfold cooldownStep
  dsimp only
  split_ifs <;> rfl

theorem buttonStep_dataScrollOffset (s : OscState) (pressed : Nat) :
    (buttonStep s pressed).dataScrollOffset = s.dataScrollOffset := by
  unfold buttonStep
  dsimp only
  split_ifs <;> rfl

theorem printInstructions_dataScrollOffset (s : OscState) (pressed : Nat) :
    (printInstructions s pressed).dataScrollOffset = s.dataScrollOffset := by
  unfold printInstructions
  split_ifs <;> rfl

/-- With at most 500 samples there is nothing to scroll. -/
theorem scrollStep_zero (endPoint held : Nat) (h : endPoint ≤ 500) :
    scrollStep endPoint held 0 = 0 := by
  unfold scrollStep
  have h1 : ¬ ((0 : Int) + 510 < (endPoint : Int)) := by omega
  have h2 : ¬ ((0 : Int) + 501 < (endPoint : Int)) := by omega
  split_ifs <;> first | rfl | omega

theorem postInputCase_dataScrollOffset (s : OscState) (held : Nat)
    (hoff : s.dataScrollOffset = 0) (hcount : s.data.endPoint ≤ 500) :
    (postInputCase s held).dataScrollOffset = 0 := by
  unfold postInputCase viewOffset
  dsimp only
  rw [hoff]
  split_ifs <;> first | rfl | exact hoff | exact scrollStep_zero _ _ hcount

/-- With a buffer of at most 500 samples a main-loop pass leaves the scroll offset at 0. -/
theorem menu_oscilloscope_dataScrollOffset (s : OscState) (pressed held : Nat)
    (hoff : s.dataScrollOffset = 0) (hcount : s.data.endPoint ≤ 500) :
    (menu_oscilloscope s pressed held).dataScrollOffset = 0 := by
  have key : ∀ s1 : OscState, s1.dataScrollOffset = 0 →
      (if held = 0 ∧ s1.buttonLock = true then { s1 with buttonLock := false }
        else s1).dataScrollOffset = 0 := by
    intro s1 h1
    split_ifs <;> exact h1
  unfold menu_oscilloscope
  apply key
  cases s.state with
  | OSC_SETUP => exact hoff
  | OSC_POST_SETUP =>
    cases s.oState with
    | PRE_INPUT =>
      simp only []
      rw [buttonStep_dataScrollOffset]
      exact hoff
    | POST_INPUT_LOCK =>
      simp only []
      rw [buttonStep_dataScrollOffset]
      apply postInputCase_dataScrollOffset
      · rw [cooldownStep_dataScrollOffset]
        exact hoff
      · rw [cooldownStep_data]
        exact hcount
    | POST_INPUT =>
      simp only []
      rw [buttonStep_dataScrollOffset]
      exact postInputCase_dataScrollOffset s held hoff hcount
  | OSC_INSTRUCTIONS =>
    simp only []
    rw [printInstructions_dataScrollOffset]
    exact hoff

/-- The invariant behind C6: the count never exceeds the capacity, it is below the capacity
while a recording is under way, and (for a capacity of at most 500) the scroll offset is 0. -/
theorem stepEvent_invariant (cap : Nat) (hcap2 : 2 ≤ cap) (hcap : cap ≤ 500) (s s1 : OscState)
    (e : Event) (h : stepEvent cap s e = some s1)
    (hinv : s.dataScrollOffset = 0 ∧ s.data.endPoint ≤ cap ∧
      (s.stickMove = true → s.data.endPoint < cap)) :
    s1.dataScrollOffset = 0 ∧ s1.data.endPoint ≤ cap ∧
      (s1.stickMove = true → s1.data.endPoint < cap) := by
  obtain ⟨hoff, hle, hmove⟩ := hinv
  cases e with
  | sample x y dt =>
    rcases callback_cases cap s s1 x y dt h with h | ⟨_, _, h⟩ | ⟨hm, hlt, _, h | ⟨hne, h⟩⟩
    · rw [h]
      exact ⟨hoff, hle, hmove⟩
    · rw [h]
      exact ⟨hoff, by simp only []; omega, fun _ => by simp only []; omega⟩
    · rw [h]
      refine ⟨hoff, by simp only []; omega, fun hc => ?_⟩
      simp only [] at hc
      exact absurd hc (by decide)
    · rw [h]
      exact ⟨hoff, by simp only []; omega, fun _ => by simp only []; omega⟩
  | frame pressed held =>
    simp only [stepEvent, Option.some.injEq] at h
    rw [← h, menu_oscilloscope_data, menu_oscilloscope_stickMove]
    exact ⟨menu_oscilloscope_dataScrollOffset s pressed held hoff (by omega), hle, hmove⟩

theorem runEvents_invariant (cap : Nat) (hcap2 : 2 ≤ cap) (hcap : cap ≤ 500) (es : List Event)
    (s s1 : OscState) (h : runEvents cap s es = some s1)
    (hinv : s.dataScrollOffset = 0 ∧ s.data.endPoint ≤ cap ∧
      (s.stickMove = true → s.data.endPoint < cap)) :
    s1.dataScrollOffset = 0 ∧ s1.data.endPoint ≤ cap ∧
      (s1.stickMove = true → s1.data.endPoint < cap) := by
  induction es generalizing s with
  | nil =>
    cases h
    exact hinv
  | cons e es ih =>
    simp only [runEvents] at h
    cases hstep : stepEvent cap s e with
    | none =>
      rw [hstep] at h
      cases h
    | some s2 =>
      rw [hstep] at h
      exact ih s2 h (stepEvent_invariant cap hcap2 hcap s s2 e hstep hinv)

theorem isMinOver_succ (f : Nat → Int) (i : Nat) (m : Int) (h : IsMinOver f i m) :
    IsMinOver f (i + 1) (if m > f i then f i else m) := by
  obtain ⟨hle, k, hk, hkm⟩ := h
  split_ifs with hc
  · refine ⟨fun j hj => ?_, i, Nat.lt_succ_self i, rfl⟩
    rcases Nat.lt_succ_iff_lt_or_eq.1 hj with hj | hj
    · have := hle j hj
      omega
    · rw [hj]
  · refine ⟨fun j hj => ?_, k, Nat.lt_succ_of_lt hk, hkm⟩
    rcases Nat.lt_succ_iff_lt_or_eq.1 hj with hj | hj
    · exact hle j hj
    · rw [hj]
      omega

theorem isMaxOver_succ (f : Nat → Int) (i : Nat) (m : Int) (h : IsMaxOver f i m) :
    IsMaxOver f (i + 1) (if m < f i then f i else m) := by
  obtain ⟨hle, k, hk, hkm⟩ := h
  split_ifs with hc
  · refine ⟨fun j hj => ?_, i, Nat.lt_succ_self i, rfl⟩
    rcases Nat.lt_succ_iff_lt_or_eq.1 hj with hj | hj
    · have := hle j hj
      omega
    · rw [hj]
  · refine ⟨fun j hj => ?_, k, Nat.lt_succ_of_lt hk, hkm⟩
    rcases Nat.lt_succ_iff_lt_or_eq.1 hj with hj | hj
    · exact hle j hj
    · rw [hj]
      omega

/-- The drawing loop, read from offset 0 with at most 500 samples, reaches index
`endPoint` and keeps the four statistics exact. -/
theorem snapbackLoop_exact (cap : Nat) (d : WaveformData) (hcap : d.endPoint ≤ cap)
    (n i : Nat) (st : SnapbackStats) (hi : i ≤ d.endPoint) (hn : d.endPoint ≤ i + n)
    (h500 : i + n ≤ 500)
    (hminX : IsMinOver (fun k => (d.data k).ax) i st.minX)
    (hmaxX : IsMaxOver (fun k => (d.data k).ax) i st.maxX)
    (hminY : IsMinOver (fun k => (d.data k).ay) i st.minY)
    (hmaxY : IsMaxOver (fun k => (d.data k).ay) i st.maxY) :
    ∃ r, snapbackLoop cap d n i i st = some r ∧
      IsMinOver (fun k => (d.data k).ax) d.endPoint r.minX ∧
      IsMaxOver (fun k => (d.data k).ax) d.endPoint r.maxX ∧
      IsMinOver (fun k => (d.data k).ay) d.endPoint r.minY ∧
      IsMaxOver (fun k => (d.data k).ay) d.endPoint r.maxY := by
  induction n generalizing i st with
  | zero =>
    have : i = d.endPoint := by omega
    subst this
    exact ⟨st, rfl, hminX, hmaxX, hminY, hmaxY⟩
  | succ n ih =>
    by_cases he : i = d.endPoint
    · subst he
      refine ⟨st, ?_, hminX, hmaxX, hminY, hmaxY⟩
      simp [snapbackLoop]
    · have hx : ¬ (i = d.endPoint ∨ i ≥ 500) := by omega
      have hlt : i < cap := by omega
      simp only [snapbackLoop, hx, if_false, hlt, if_true, waveformScaleFactor]
      exact ih (i + 1) (snapbackUpdate st (d.data i)) (by omega) (by omega) (by omega)
        (isMinOver_succ _ i st.minX hminX) (isMaxOver_succ _ i st.maxX hmaxX)
        (isMinOver_succ _ i st.minY hminY) (isMaxOver_succ _ i st.maxY hmaxY)

/-- C6. Snapback: let `d` be a buffer with `1 <= count <= WAVEFORM_SAMPLES` (500) and let the
scroll offset be the one of any state the machine can reach from the initial state by
callbacks and main-loop passes (that offset is always 0).  Then the statistics printed for
`d` are exactly the minimum and maximum of `ax` and of `ay` over all of
`samples[0..count)`.  For the samples `(10,5), (-30,20), (15,-25)` they are
`minX = -30`, `maxX = 15`, `minY = -25`, `maxY = 20`. -/
theorem snapback_exact (d : WaveformData) (hcount : 1 ≤ d.endPoint)
    (hmax : d.endPoint ≤ WAVEFORM_SAMPLES) (es : List Event) (s : OscState)
    (hreach : runEvents WAVEFORM_SAMPLES initState es = some s) :
    (∃ r, snapbackMinMax WAVEFORM_SAMPLES d s.dataScrollOffset = some r ∧
      IsMinOver (fun k => (d.data k).ax) d.endPoint r.minX ∧
      IsMaxOver (fun k => (d.data k).ax) d.endPoint r.maxX ∧
      IsMinOver (fun k => (d.data k).ay) d.endPoint r.minY ∧
      IsMaxOver (fun k => (d.data k).ay) d.endPoint r.maxY) ∧
    snapbackMinMax WAVEFORM_SAMPLES (bufferOf [⟨10, 5, 1000⟩, ⟨-30, 20, 1000⟩, ⟨15, -25, 1000⟩])
      s.dataScrollOffset = some { minX := -30, maxX := 15, minY := -25, maxY := 20 } := by
  have hoff : s.dataScrollOffset = 0 :=
    (runEvents_invariant WAVEFORM_SAMPLES (by decide) (by decide) es initState s hreach
      ⟨rfl, by decide, fun h => absurd h (by decide)⟩).1
  rw [hoff]
  refine ⟨?_, by decide⟩
  have h500 : WAVEFORM_SAMPLES = 500 := rfl
  have hv : viewOffset d.endPoint 0 = 0 := by
    unfold viewOffset
    split_ifs <;> rfl
  unfold snapbackMinMax
  simp only [hv]
  have hc : (0 : Int) ≤ 0 ∧ (0 : Int).toNat < WAVEFORM_SAMPLES := by decide
  rw [if_pos hc]
  have hz : (0 : Int).toNat = 0 := rfl
  rw [hz]
  have hone : ∀ f : Nat → Int, IsMinOver f 1 (f 0) ∧ IsMaxOver f 1 (f 0) := by
    intro f
    refine ⟨⟨fun k hk => ?_, 0, by decide, rfl⟩, ⟨fun k hk => ?_, 0, by decide, rfl⟩⟩
    · have : k = 0 := by omega
      rw [this]
    · have : k = 0 := by omega
      rw [this]
  exact snapbackLoop_exact WAVEFORM_SAMPLES d hmax 499 1 _ hcount (by omega) (by omega)
    (hone _).1 (hone _).2 (hone _).1 (hone _).2

/-- Witness for C6: the statistics of the three-sample buffer of the claim, at the offset of
the initial state. -/
theorem snapback_exact_witness :
    snapbackMinMax WAVEFORM_SAMPLES (bufferOf [⟨10, 5, 1000⟩, ⟨-30, 20, 1000⟩, ⟨15, -25, 1000⟩])
      initState.dataScrollOffset = some { minX := -30, maxX := 15, minY := -25, maxY := 20 } :=
  (snapback_exact (bufferOf [⟨10, 5, 1000⟩, ⟨-30, 20, 1000⟩, ⟨15, -25, 1000⟩]) (by decide)
    (by decide) [] initState rfl).2

/-! ## C7: Pivot percentages -/

theorem sumTimeU64_eq (d : WaveformData) (n first acc : Nat) (hacc : acc < U64_MOD) :
    sumTimeU64 d n first acc = (acc + sumTimeRange d first n) % U64_MOD := by
  induction n generalizing first acc with
  | zero =>
    simp only [sumTimeU64, sumTimeRange, List.range'_zero, List.map_nil, List.sum_nil,
      Nat.add_zero]
    exact (Nat.mod_eq_of_lt hacc).symm
  | succ n ih =>
    simp only [sumTimeU64]
    rw [ih _ _ (Nat.mod_lt _ (by decide))]
    simp only [sumTimeRange, List.range'_succ, List.map_cons, List.sum_cons]
    rw [Nat.mod_add_mod, Nat.add_assoc]

theorem pivotPercents_props (F : ℚ) (hF : 0 < F) (t : Nat) :
    (pivotPercents F t).pivotPercent + (pivotPercents F t).noTurnPercent +
      (pivotPercents F t).dashbackPercent = 100 ∧
    (0 ≤ (pivotPercents F t).pivotPercent ∧ (pivotPercents F t).pivotPercent ≤ 100) ∧
    (0 ≤ (pivotPercents F t).noTurnPercent ∧ (pivotPercents F t).noTurnPercent ≤ 100) ∧
    (0 ≤ (pivotPercents F t).dashbackPercent ∧ (pivotPercents F t).dashbackPercent ≤ 100) ∧
    ((t : ℚ) / 1000 < F →
      0 < (pivotPercents F t).noTurnPercent ∧ (pivotPercents F t).dashbackPercent = 0) ∧
    (F < (t : ℚ) / 1000 →
      0 < (pivotPercents F t).dashbackPercent ∧ (pivotPercents F t).noTurnPercent = 0) := by
  unfold pivotPercents
  by_cases hd : F - (t : ℚ) / 1000 < 0
  · have hpos : 0 < (F - (t : ℚ) / 1000) * -1 / F * 100 :=
      mul_pos (div_pos (by linarith) hF) (by norm_num)
    by_cases hc : (F - (t : ℚ) / 1000) * -1 / F * 100 > 100
    · simp only [hd, hc, if_true]
      refine ⟨by norm_num, ⟨by norm_num, by norm_num⟩, ⟨le_refl _, by norm_num⟩,
        ⟨by norm_num, le_refl _⟩, fun h => by linarith, fun _ => ⟨by norm_num, trivial⟩⟩
    · simp only [hd, hc, if_true, if_false]
      have hle : (F - (t : ℚ) / 1000) * -1 / F * 100 ≤ 100 := not_lt.1 hc
      refine ⟨by ring, ⟨by linarith, by linarith⟩, ⟨le_refl _, by norm_num⟩,
        ⟨le_of_lt hpos, hle⟩, fun h => by linarith, fun _ => ⟨hpos, trivial⟩⟩
  · have hnn : 0 ≤ (F - (t : ℚ) / 1000) / F * 100 :=
      mul_nonneg (div_nonneg (by linarith) (le_of_lt hF)) (by norm_num)
    by_cases hc : (F - (t : ℚ) / 1000) / F * 100 > 100
    · simp only [hd, hc, if_true, if_false]
      refine ⟨by norm_num, ⟨by norm_num, by norm_num⟩, ⟨by norm_num, le_refl _⟩,
        ⟨le_refl _, by norm_num⟩, fun _ => ⟨by norm_num, trivial⟩, fun h => by linarith⟩
    · simp only [hd, hc, if_false]
      have hle : (F - (t : ℚ) / 1000) / F * 100 ≤ 100 := not_lt.1 hc
      refine ⟨by ring, ⟨by linarith, by linarith⟩, ⟨hnn, hle⟩, ⟨le_refl _, by norm_num⟩,
        fun h => ⟨mul_pos (div_pos (by linarith) hF) (by norm_num), trivial⟩, fun h => by linarith⟩

/-- C7. Pivot percentages over exact rational arithmetic, for every frame time `F > 0`: when
the PIVOT test detects a pivot, `pivotPercent + noTurnPercent + dashbackPercent = 100` and
each of the three lies in `[0, 100]`; the time it uses is the sum of `timeDiffUs` over
`[pivotStartIndex, pivotEndIndex]` (modulo `2 ^ 64`, the accumulator being a `u64`); and if
that sum (fitting in 64 bits), in milliseconds, is below `F` then `noTurnPercent > 0` and
`dashbackPercent = 0`, if it is above `F` then `dashbackPercent > 0` and
`noTurnPercent = 0`. -/
theorem pivot_percentages (F : ℚ) (hF : 0 < F) (cap : Nat) (d : WaveformData)
    (pivotStartIndex pivotEndIndex : Int) (timeInPivotRangeUs : Nat) (pct : PivotPercents)
    (h : pivotTest F cap d =
      some (PivotResult.pivot pivotStartIndex pivotEndIndex timeInPivotRangeUs pct)) :
    pct.pivotPercent + pct.noTurnPercent + pct.dashbackPercent = 100 ∧
    (0 ≤ pct.pivotPercent ∧ pct.pivotPercent ≤ 100) ∧
    (0 ≤ pct.noTurnPercent ∧ pct.noTurnPercent ≤ 100) ∧
    (0 ≤ pct.dashbackPercent ∧ pct.dashbackPercent ≤ 100) ∧
    timeInPivotRangeUs = sumTimeRange d pivotStartIndex.toNat
      (pivotEndIndex + 1 - pivotStartIndex).toNat % U64_MOD ∧
    (sumTimeRange d pivotStartIndex.toNat (pivotEndIndex + 1 - pivotStartIndex).toNat < U64_MOD →
      (((sumTimeRange d pivotStartIndex.toNat
          (pivotEndIndex + 1 - pivotStartIndex).toNat : Nat) : ℚ) / 1000 < F →
        0 < pct.noTurnPercent ∧ pct.dashbackPercent = 0) ∧
      (F < ((sumTimeRange d pivotStartIndex.toNat
          (pivotEndIndex + 1 - pivotStartIndex).toNat : Nat) : ℚ) / 1000 →
        0 < pct.dashbackPercent ∧ pct.noTurnPercent = 0)) := by
  unfold pivotTest at h
  cases hscan : pivotScan cap d d.endPoint pivotInit with
  | none =>
    rw [hscan] at h
    cases h
  | some st =>
    rw [hscan] at h
    simp only [] at h
    split_ifs at h
    all_goals cases h
    have hp := pivotPercents_props F hF
      (sumTimeU64 d (st.pivotEndIndex + 1 - st.pivotStartIndex).toNat st.pivotStartIndex.toNat 0)
    have ht := sumTimeU64_eq d (st.pivotEndIndex + 1 - st.pivotStartIndex).toNat
      st.pivotStartIndex.toNat 0 (by decide)
    rw [Nat.zero_add] at ht
    refine ⟨hp.1, hp.2.1, hp.2.2.1, hp.2.2.2.1, ht, fun hfit => ?_⟩
    rw [Nat.mod_eq_of_lt hfit] at ht
    rw [← ht]
    exact hp.2.2.2.2

/-- Witness for C7: on the run from `+85` through the dash zone to `-85`, with 16 ms beyond
`-64`, the PIVOT test detects the pivot over the slots 4 and 5; with the frame time `50/3` ms
the percentages add up to 100, `noTurnPercent` is positive and `dashbackPercent` is 0. -/
theorem pivot_percentages_witness :
    pivotTest (50 / 3) WAVEFORM_SAMPLES (pivotExample 8000) =
      some (PivotResult.pivot 4 5 16000 (pivotPercents (50 / 3) 16000)) ∧
    (pivotPercents (50 / 3) 16000).pivotPercent + (pivotPercents (50 / 3) 16000).noTurnPercent +
      (pivotPercents (50 / 3) 16000).dashbackPercent = 100 ∧
    0 < (pivotPercents (50 / 3) 16000).noTurnPercent ∧
    (pivotPercents (50 / 3) 16000).dashbackPercent = 0 := by
  have h : pivotTest (50 / 3) WAVEFORM_SAMPLES (pivotExample 8000) =
      some (PivotResult.pivot 4 5 16000 (pivotPercents (50 / 3) 16000)) := by
    rfl
  have hw := pivot_percentages (50 / 3) (by norm_num) WAVEFORM_SAMPLES (pivotExample 8000)
    4 5 16000 _ h
  have hs : sumTimeRange (pivotExample 8000) (4 : Int).toNat ((5 : Int) + 1 - 4).toNat
      = 16000 := by decide
  have hlt := (hw.2.2.2.2.2 (by rw [hs]; decide)).1 (by rw [hs]; norm_num)
  exact ⟨h, hw.1, hlt.1, hlt.2⟩

/-! ## C8: Pivot rejection -/

/-- C8, the code at the failing input.  After the two captures of `twoCaptures`, with the
PIVOT test selected, the buffer is ready with count 2 and
`samples[0..2) = (-85, 0), (0, 0)`: a single dash-range run, no run before it.  Slot 2 still
holds `(85, 0, 16000)` from the first capture.  The PIVOT scan starts at slot `count = 2`,
takes that stale sample for the end of the pivot, and reports a pivot over `[2, 2]` with its
percentages instead of "No pivot input detected." -/
theorem pivot_reads_stale_slot :
    ∃ s, runEvents WAVEFORM_SAMPLES initState twoCaptures = some s ∧
      s.currentTest = OSCILLOSCOPE_TEST.PIVOT ∧
      s.data.isDataReady = true ∧ s.data.endPoint = 2 ∧
      s.data.data 0 = ⟨-85, 0, 1000⟩ ∧ s.data.data 1 = ⟨0, 0, 40000⟩ ∧
      s.data.data 2 = ⟨85, 0, 16000⟩ ∧
      ∀ F : ℚ, pivotTest F WAVEFORM_SAMPLES s.data =
        some (PivotResult.pivot 2 2 16000 (pivotPercents F 16000)) :=
  ⟨_, rfl, rfl, rfl, rfl, rfl, rfl, rfl, fun _ => rfl⟩

/-- On a full buffer the PIVOT scan starts at slot `count = cap`, which is outside the
array. -/
theorem pivotTest_full_buffer (F : ℚ) (cap : Nat) (d : WaveformData) (h : d.endPoint = cap) :
    pivotTest F cap d = none := by
  unfold pivotTest
  rw [h]
  cases cap with
  | zero => rfl
  | succ n =>
    simp only [pivotScan, Nat.lt_irrefl, if_false]

/-! ## What a detected pivot consists of -/

theorem inDashRange_iff (ax : Int) : inDashRange ax = true ↔ 64 ≤ |ax| := by
  simp only [inDashRange, decide_eq_true_eq, le_abs]
  omega

theorem hits80_iff (ax : Int) : hits80 ax = true ↔ 80 ≤ |ax| := by
  simp only [hits80, decide_eq_true_eq, le_abs]
  omega

theorem pivotMarkEnd_out (ax : Int) (i : Nat) (st : PivotScan) (h : inDashRange ax = false) :
    pivotMarkEnd ax i st = st := by
  have h1 : ¬ (ax ≥ 64 ∨ ax ≤ -64) := by simpa [inDashRange] using h
  unfold pivotMarkEnd
  rw [if_neg h1]

theorem pivotMarkEnd_in (ax : Int) (i : Nat) (st : PivotScan) (h : inDashRange ax = true) :
    pivotMarkEnd ax i st =
      ⟨st.pivotHit80 || hits80 ax, st.prevPivotHit80, st.leftPivotRange, st.prevLeftPivotRange,
        st.pivotStartIndex, if st.pivotEndIndex = -1 then (i : Int) else st.pivotEndIndex,
        st.pivotStartSign⟩ := by
  have h1 : ax ≥ 64 ∨ ax ≤ -64 := by simpa [inDashRange] using h
  unfold pivotMarkEnd
  rw [if_pos h1]
  by_cases h80 : ax ≥ 80 ∨ ax ≤ -80
  · have h2 : hits80 ax = true := by simpa [hits80] using h80
    by_cases he : st.pivotEndIndex = -1 <;> simp [h80, h2, he]
  · have h2 : hits80 ax = false := by simpa [hits80] using h80
    by_cases he : st.pivotEndIndex = -1 <;> simp [h80, h2, he]

theorem pivotMarkStart_out (ax : Int) (st : PivotScan) (h : inDashRange ax = false) :
    pivotMarkStart ax st = (st, false) := by
  have h1 : ¬ (ax ≥ 64 ∨ ax ≤ -64) := by simpa [inDashRange] using h
  unfold pivotMarkStart
  rw [if_neg (fun hc => h1 hc.1)]

theorem pivotMarkStart_noleft (ax : Int) (st : PivotScan) (h : st.leftPivotRange = false) :
    pivotMarkStart ax st = (st, false) := by
  unfold pivotMarkStart
  rw [if_neg (fun hc => by rw [h] at hc; exact absurd hc.2 (by decide))]

theorem pivotMarkStart_in (ax : Int) (st : PivotScan) (h : inDashRange ax = true)
    (hl : st.leftPivotRange = true) :
    pivotMarkStart ax st =
      (⟨st.pivotHit80, st.prevPivotHit80 || hits80 ax, st.leftPivotRange, true,
        st.pivotStartIndex, st.pivotEndIndex,
        if st.pivotStartSign = 0 then ax else st.pivotStartSign⟩, hits80 ax) := by
  have h1 : ax ≥ 64 ∨ ax ≤ -64 := by simpa [inDashRange] using h
  unfold pivotMarkStart
  rw [if_pos ⟨h1, hl⟩]
  by_cases h80 : ax ≥ 80 ∨ ax ≤ -80
  · have h2 : hits80 ax = true := by simpa [hits80] using h80
    simp [h80, h2]
  · have h2 : hits80 ax = false := by simpa [hits80] using h80
    simp [h80, h2]

theorem pivotBody_in (ax : Int) (i : Nat) (st : PivotScan) (h : inDashRange ax = true) :
    pivotBody ax i st = pivotMarkStart ax (pivotMarkEnd ax i st) := by
  have h1 : ax ≥ 64 ∨ ax ≤ -64 := by simpa [inDashRange] using h
  unfold pivotBody
  dsimp only
  rw [if_neg (fun hc => by omega)]

theorem pivotBody_out (ax : Int) (i : Nat) (st : PivotScan) (h : inDashRange ax = false) :
    pivotBody ax i st =
      if st.pivotEndIndex = -1 then (st, false)
      else (⟨st.pivotHit80, st.prevPivotHit80, true, st.prevLeftPivotRange,
          if st.pivotStartIndex = -1 then (i : Int) + 1 else st.pivotStartIndex,
          st.pivotEndIndex, st.pivotStartSign⟩, st.prevLeftPivotRange || !st.pivotHit80) := by
  have h1 : ¬ (ax ≥ 64 ∨ ax ≤ -64) := by simpa [inDashRange] using h
  have h2 : ax < 64 ∧ ax > -64 := by omega
  unfold pivotBody
  dsimp only
  rw [pivotMarkEnd_out ax i st h]
  by_cases he : st.pivotEndIndex = -1
  · rw [if_neg (fun hc => hc.1 he), if_pos he, pivotMarkStart_out ax st h]
  · rw [if_pos ⟨he, h2⟩, if_neg he]
    by_cases hb : st.prevLeftPivotRange = true ∨ st.pivotHit80 = false
    · rw [if_pos hb]
      rcases hb with hb | hb <;> simp [hb]
    · rw [if_neg hb, pivotMarkStart_out _ _ h]
      have hb1 : st.prevLeftPivotRange = false := by
        cases hp : st.prevLeftPivotRange
        · rfl
        · exact absurd (Or.inl hp) hb
      have hb2 : st.pivotHit80 = true := by
        cases hp : st.pivotHit80
        · exact absurd (Or.inr hp) hb
        · rfl
      simp [hb1, hb2]

/-- One pass through the loop body at slot `i`: either the loop is left, and then a set
`prevPivotHit80` means that a pivot shape has been found; or the scan goes on in the phase
that follows. -/
theorem pivotBody_step (d : WaveformData) (top i : Nat) (st : PivotScan) (hi : i ≤ top)
    (hph : PivotPhase d top i st) :
    ((pivotBody (d.data i).ax i st).2 = true ∧
      ((pivotBody (d.data i).ax i st).1.prevPivotHit80 = true →
        PivotFound d top (pivotBody (d.data i).ax i st).1)) ∨
    ((pivotBody (d.data i).ax i st).2 = false ∧
      (pivotBody (d.data i).ax i st).1.prevPivotHit80 = false ∧
      ∀ j, i = j + 1 → PivotPhase d top j (pivotBody (d.data i).ax i st).1) := by
  have hstep : ∀ (j : Nat) (P : Nat → Prop), i = j + 1 → P i → (∀ k, i < k → P k) →
      ∀ k, j < k → P k := by
    intro j P hj hPi hP k hk
    rcases Nat.lt_or_ge i k with h | h
    · exact hP k h
    · have : k = i := by omega
      rw [this]
      exact hPi
  rcases hph with ⟨hst, habove⟩ | ⟨e, h, hie, het, hst, htail, hrun, hhit⟩ |
    ⟨e, g, hig, hge, het, hst, htail, hrun, hgap, hhit⟩ |
    ⟨e, g, f, hif, hshape, hst, hrun1, hhit⟩
  · -- nothing found yet
    subst hst
    cases hR : inDashRange (d.data i).ax
    · rw [pivotBody_out _ _ _ hR]
      right
      refine ⟨rfl, rfl, fun j hj => Or.inl ⟨rfl, fun k hk hkt => ?_⟩⟩
      rcases Nat.lt_or_ge i k with h | h
      · exact habove k h hkt
      · have : k = i := by omega
        rw [this]
        exact hR
    · rw [pivotBody_in _ _ _ hR, pivotMarkEnd_in _ _ _ hR, pivotMarkStart_noleft _ _ rfl]
      right
      refine ⟨rfl, rfl, fun j hj => Or.inr (Or.inl ⟨i, hits80 (d.data i).ax, by omega, hi,
        by simp [pivotInit], habove, fun k hk hki => ?_, fun hh => ⟨i, by omega, le_refl _, ?_⟩⟩)⟩
      · have : k = i := by omega
        rw [this]
        exact hR
      · simpa [pivotInit] using hh
  · -- inside the last run
    subst hst
    have hne : ¬ ((e : Int) = -1) := by omega
    cases hR : inDashRange (d.data i).ax
    · rw [pivotBody_out _ _ _ hR]
      simp only [hne, if_false, if_true, Bool.false_or]
      cases h with
      | false =>
        left
        exact ⟨rfl, fun hc => absurd hc (by decide)⟩
      | true =>
        right
        refine ⟨rfl, trivial, fun j hj => Or.inr (Or.inr (Or.inl ⟨e, i, by omega, hie, het, rfl,
          htail, hrun, fun k hk hki => ?_, hhit rfl⟩))⟩
        have : k = i := by omega
        rw [this]
        exact hR
    · rw [pivotBody_in _ _ _ hR, pivotMarkEnd_in _ _ _ hR, pivotMarkStart_noleft _ _ rfl]
      right
      simp only [hne, if_false]
      refine ⟨trivial, trivial, fun j hj => Or.inr (Or.inl ⟨e, h || hits80 (d.data i).ax, by omega, het,
        rfl, htail, fun k hk hke => ?_, fun hh => ?_⟩)⟩
      · rcases Nat.lt_or_ge i k with h1 | h1
        · exact hrun k h1 hke
        · have : k = i := by omega
          rw [this]
          exact hR
      · cases h with
        | true =>
          obtain ⟨k, hk1, hk2, hk3⟩ := hhit rfl
          exact ⟨k, by omega, hk2, hk3⟩
        | false =>
          simp only [Bool.false_or] at hh
          exact ⟨i, by omega, by omega, hh⟩
  · -- inside the gap
    subst hst
    have hne : ¬ ((e : Int) = -1) := by omega
    have hne2 : ¬ ((g : Int) + 1 = -1) := by omega
    cases hR : inDashRange (d.data i).ax
    · rw [pivotBody_out _ _ _ hR]
      simp only [hne, hne2, if_false, Bool.false_or, Bool.not_true]
      right
      refine ⟨trivial, trivial, fun j hj => Or.inr (Or.inr (Or.inl ⟨e, g, by omega, hge, het, rfl,
        htail, hrun, fun k hk hkg => ?_, hhit⟩))⟩
      rcases Nat.lt_or_ge i k with h1 | h1
      · exact hgap k h1 hkg
      · have : k = i := by omega
        rw [this]
        exact hR
    · rw [pivotBody_in _ _ _ hR, pivotMarkEnd_in _ _ _ hR, pivotMarkStart_in _ _ hR rfl]
      simp only [hne, if_false, if_true, Bool.true_or, Bool.false_or]
      have hshape : PivotShape d top e g i := ⟨hig, hge, het, htail, hrun, hgap, hR⟩
      cases h80 : hits80 (d.data i).ax
      · right
        refine ⟨rfl, rfl, fun j hj => Or.inr (Or.inr (Or.inr ⟨e, g, i, by omega, hshape, rfl,
          fun k hk hki => ?_, hhit⟩))⟩
        have : k = i := by omega
        rw [this]
        exact hR
      · left
        refine ⟨rfl, fun _ => ⟨e, g, i, i, hshape, rfl, rfl, rfl, hhit, le_refl _,
          fun k hk hki => ?_, h80⟩⟩
        have : k = i := by omega
        rw [this]
        exact hR
  · -- inside the run before the gap
    subst hst
    have hne : ¬ ((e : Int) = -1) := by omega
    have hne2 : ¬ ((g : Int) + 1 = -1) := by omega
    have hsign : ¬ ((d.data f).ax = 0) := by
      have := hshape.2.2.2.2.2.2
      simp only [inDashRange, decide_eq_true_eq] at this
      omega
    cases hR : inDashRange (d.data i).ax
    · rw [pivotBody_out _ _ _ hR]
      simp only [hne, if_false, Bool.true_or]
      left
      exact ⟨trivial, fun hc => absurd hc (by decide)⟩
    · rw [pivotBody_in _ _ _ hR, pivotMarkEnd_in _ _ _ hR, pivotMarkStart_in _ _ hR rfl]
      simp only [hne, hsign, if_false, Bool.true_or, Bool.false_or]
      have hrun2 : ∀ k, i ≤ k → k ≤ f → inDashRange (d.data k).ax = true := by
        intro k hk hkf
        rcases Nat.lt_or_ge i k with h1 | h1
        · exact hrun1 k h1 hkf
        · have : k = i := by omega
          rw [this]
          exact hR
      cases h80 : hits80 (d.data i).ax
      · right
        exact ⟨rfl, rfl, fun j hj => Or.inr (Or.inr (Or.inr ⟨e, g, f, by omega, hshape, rfl,
          fun k hk hkf => hrun2 k (by omega) hkf, hhit⟩))⟩
      · left
        exact ⟨rfl, fun _ => ⟨e, g, f, i, hshape, rfl, rfl, rfl, hhit, by omega, hrun2, h80⟩⟩

/-- The backward scan of the slots `[0, top]`, resumed at slot `i`: if it ends with
`prevPivotHit80` set, it has found a pivot shape. -/
theorem pivotScan_sound (cap : Nat) (d : WaveformData) (top i : Nat) (st st1 : PivotScan)
    (hi : i ≤ top) (hph : PivotPhase d top i st) (h : pivotScan cap d i st = some st1)
    (hhit : st1.prevPivotHit80 = true) : PivotFound d top st1 := by
  induction i generalizing st with
  | zero =>
    simp only [pivotScan] at h
    split_ifs at h
    simp only [Option.some.injEq] at h
    rcases pivotBody_step d top 0 st hi hph with ⟨_, hfound⟩ | ⟨_, hno, _⟩
    · rw [← h]
      rw [← h] at hhit
      exact hfound hhit
    · rw [← h, hno] at hhit
      exact absurd hhit (by decide)
  | succ i ih =>
    simp only [pivotScan] at h
    split_ifs at h with hcap hbrk
    · simp only [Option.some.injEq] at h
      rcases pivotBody_step d top (i + 1) st hi hph with ⟨_, hfound⟩ | ⟨hnb, _, _⟩
      · rw [← h]
        rw [← h] at hhit
        exact hfound hhit
      · rw [hnb] at hbrk
        exact absurd hbrk (by decide)
    · rcases pivotBody_step d top (i + 1) st hi hph with ⟨hb, _⟩ | ⟨_, _, hnext⟩
      · exact absurd hb hbrk
      · exact ih _ (by omega) (hnext i rfl) h

/-- The backward scan does not leave the array when it starts inside it. -/
theorem pivotScan_isSome (cap : Nat) (d : WaveformData) (i : Nat) (st : PivotScan)
    (hi : i < cap) : ∃ st1, pivotScan cap d i st = some st1 := by
  induction i generalizing st with
  | zero =>
    simp only [pivotScan, hi, if_true]
    exact ⟨_, rfl⟩
  | succ i ih =>
    simp only [pivotScan, hi, if_true]
    split_ifs
    · exact ⟨_, rfl⟩
    · exact ih _ (by omega)

/-- What a detected pivot consists of.  When the PIVOT test reports a pivot, the slots
`[0, count]` (slot `count` included) have a pivot shape: a last dash-range run `(g, e]`
containing a sample with `|x| >= 80`, a gap `(f, g]`, and before it a dash-range run ending
at `f` that contains a sample with `|x| >= 80`; `x` at `e` and at `f` have opposite signs;
and the reported indices are `pivotStartIndex = g + 1`, `pivotEndIndex = e`. -/
theorem pivotTest_sound (F : ℚ) (cap : Nat) (d : WaveformData)
    (pivotStartIndex pivotEndIndex : Int) (timeInPivotRangeUs : Nat) (pct : PivotPercents)
    (h : pivotTest F cap d =
      some (PivotResult.pivot pivotStartIndex pivotEndIndex timeInPivotRangeUs pct)) :
    ∃ e g f f1 : Nat, PivotShape d d.endPoint e g f ∧
      pivotEndIndex = (e : Int) ∧ pivotStartIndex = (g : Int) + 1 ∧
      (∃ k, g < k ∧ k ≤ e ∧ hits80 (d.data k).ax = true) ∧
      f1 ≤ f ∧ (∀ k, f1 ≤ k → k ≤ f → inDashRange (d.data k).ax = true) ∧
      hits80 (d.data f1).ax = true ∧
      (d.data e).ax * (d.data f).ax < 0 := by
  unfold pivotTest at h
  cases hscan : pivotScan cap d d.endPoint pivotInit with
  | none =>
    rw [hscan] at h
    cases h
  | some st =>
    rw [hscan] at h
    simp only [] at h
    split_ifs at h with hflags hbound hsign hstart
    · obtain ⟨e, g, f, f1, hshape, he, hg, hs, hhit2, hf1, hrun1, hhit1⟩ :=
        pivotScan_sound cap d d.endPoint d.endPoint pivotInit st (le_refl _)
          (Or.inl ⟨rfl, fun k hk hkt => absurd hkt (by omega)⟩) hscan hflags.1
      simp only [Option.some.injEq, PivotResult.pivot.injEq] at h
      refine ⟨e, g, f, f1, hshape, by rw [← h.2.1, he], by rw [← h.1, hg], hhit2, hf1, hrun1,
        hhit1, ?_⟩
      rw [he, hs] at hsign
      exact hsign
    · cases h
    · cases h

/-- Pivot rejection when slot `count` lies inside the array and outside the dash range (as
it does after a first capture that did not fill the buffer): if `samples[0..count)` has no
pivot shape whose two runs both contain a sample with `|x| >= 80` and whose `x` at `e` and
at `f` have opposite signs, the PIVOT test reports "No pivot input detected.". -/
theorem pivotTest_rejects (F : ℚ) (cap : Nat) (d : WaveformData) (hcap : d.endPoint < cap)
    (hslot : inDashRange (d.data d.endPoint).ax = false)
    (hno : ∀ e g f f1 : Nat, PivotShape d (d.endPoint - 1) e g f → e < d.endPoint →
      (∃ k, g < k ∧ k ≤ e ∧ hits80 (d.data k).ax = true) →
      f1 ≤ f → (∀ k, f1 ≤ k → k ≤ f → inDashRange (d.data k).ax = true) →
      hits80 (d.data f1).ax = true → ¬ ((d.data e).ax * (d.data f).ax < 0)) :
    pivotTest F cap d = some PivotResult.noPivot := by
  cases hres : pivotTest F cap d with
  | none =>
    exfalso
    unfold pivotTest at hres
    obtain ⟨st, hscan⟩ := pivotScan_isSome cap d d.endPoint pivotInit hcap
    rw [hscan] at hres
    simp only [] at hres
    split_ifs at hres with hflags hbound hsign hstart
    · obtain ⟨e, g, f, f1, hshape, he, hg, _⟩ :=
        pivotScan_sound cap d d.endPoint d.endPoint pivotInit st (le_refl _)
          (Or.inl ⟨rfl, fun k hk hkt => absurd hkt (by omega)⟩) hscan hflags.1
      rw [hg] at hstart
      omega
    · obtain ⟨e, g, f, f1, hshape, he, hg, _⟩ :=
        pivotScan_sound cap d d.endPoint d.endPoint pivotInit st (le_refl _)
          (Or.inl ⟨rfl, fun k hk hkt => absurd hkt (by omega)⟩) hscan hflags.1
      rw [he] at hbound
      have := hshape.2.2.1
      exact hbound ⟨by omega, by omega⟩
  | some r =>
    cases r with
    | noPivot => rfl
    | pivot a b t pct =>
      exfalso
      obtain ⟨e, g, f, f1, hshape, _, _, hhit2, hf1, hrun1, hhit1, hsign⟩ :=
        pivotTest_sound F cap d a b t pct hres
      obtain ⟨h1, h2, h3, h4, h5, h6, h7⟩ := hshape
      have hlast : e < d.endPoint := by
        rcases Nat.lt_or_ge e d.endPoint with hlt | hge
        · exact hlt
        · have heq : e = d.endPoint := by omega
          have hin := h5 e h2 (le_refl _)
          rw [heq, hslot] at hin
          exact absurd hin (by decide)
      exact hno e g f f1 ⟨h1, h2, by omega, fun k hk hkt => h4 k hk (by omega), h5, h6, h7⟩
        hlast hhit2 hf1 hrun1 hhit1 hsign

/-! ## The Dashback scan (C9, C10) -/

theorem sumTimeU64_succ (d : WaveformData) (n first acc : Nat) :
    sumTimeU64 d (n + 1) first acc =
      (sumTimeU64 d n first acc + (d.data (first + n)).timeDiffUs) % U64_MOD := by
  induction n generalizing first acc with
  | zero => rfl
  | succ n ih =>
    have e : sumTimeU64 d (n + 1 + 1) first acc =
        sumTimeU64 d (n + 1) (first + 1) ((acc + (d.data first).timeDiffUs) % U64_MOD) := rfl
    rw [e, ih]
    have e2 : first + 1 + n = first + (n + 1) := by omega
    rw [e2]
    rfl

/-- Outside the zone and before the run, the scan just moves on. -/
theorem dashScan_outside (cap : Nat) (d : WaveformData) (m n i : Nat) (st : DashScan)
    (hst : st.dashbackStartIndex = -1) (hm : m ≤ n) (hcap : i + m ≤ cap)
    (hout : ∀ k, i ≤ k → k < i + m → inDashZone (d.data k).ax = false) :
    dashScan cap d n i st = dashScan cap d (n - m) (i + m) st := by
  induction m generalizing n i with
  | zero => rfl
  | succ m ih =>
    cases n with
    | zero => omega
    | succ n =>
      have hi : i < cap := by omega
      have hz := hout i (le_refl _) (by omega)
      have hne : ¬ (st.dashbackStartIndex ≠ -1) := by simp [hst]
      simp only [dashScan, hi, if_true, hz, Bool.false_eq_true, if_false, hne]
      rw [ih n (i + 1) (by omega) (by omega) (fun k h1 h2 => hout k (by omega) (by omega))]
      have e1 : n + 1 - (m + 1) = n - m := by omega
      have e2 : i + 1 + m = i + (m + 1) := by omega
      rw [e1, e2]

/-- The first sample in the zone starts the run. -/
theorem dashScan_enter (cap : Nat) (d : WaveformData) (n i : Nat) (st : DashScan)
    (hst : st.dashbackStartIndex = -1) (hi : i < cap)
    (hin : inDashZone (d.data i).ax = true) :
    dashScan cap d (n + 1) i st = dashScan cap d n (i + 1)
      { st with
        timeInRange := (st.timeInRange + (d.data i).timeDiffUs) % U64_MOD
        dashbackStartIndex := (i : Int) } := by
  simp only [dashScan, hi, if_true, hin, hst]

/-- Inside the run, as long as the samples stay in the zone, the scan only adds up time. -/
theorem dashScan_inside (cap : Nat) (d : WaveformData) (n i : Nat) (st : DashScan)
    (hst : st.dashbackStartIndex ≠ -1) (hcap : i + n ≤ cap)
    (hin : ∀ k, i ≤ k → k < i + n → inDashZone (d.data k).ax = true) :
    dashScan cap d n i st =
      some { st with timeInRange := sumTimeU64 d n i st.timeInRange } := by
  induction n generalizing i st with
  | zero => rfl
  | succ n ih =>
    have hi : i < cap := by omega
    have hz := hin i (le_refl _) (by omega)
    simp only [dashScan, hi, if_true, hz, hst, if_false]
    exact (ih (i + 1)
      ⟨st.dashbackStartIndex, st.dashbackEndIndex,
        (st.timeInRange + (d.data i).timeDiffUs) % U64_MOD⟩
      hst (by omega) (fun k h1 h2 => hin k (by omega) (by omega))).trans rfl

/-- Inside the run, the first sample outside the zone ends the scan. -/
theorem dashScan_leave (cap : Nat) (d : WaveformData) (m n i : Nat) (st : DashScan)
    (hst : st.dashbackStartIndex ≠ -1) (hm : m < n) (hcap : i + m < cap)
    (hin : ∀ k, i ≤ k → k < i + m → inDashZone (d.data k).ax = true)
    (hout : inDashZone (d.data (i + m)).ax = false) :
    dashScan cap d n i st =
      some { st with
        timeInRange := sumTimeU64 d m i st.timeInRange
        dashbackEndIndex := ((i + m : Nat) : Int) - 1 } := by
  induction m generalizing n i st with
  | zero =>
    cases n with
    | zero => omega
    | succ n =>
      have hi : i < cap := by omega
      simp only [Nat.add_zero] at hout
      simp only [dashScan, hi, if_true, hout, Bool.false_eq_true, if_false, hst, ne_eq,
        not_false_eq_true, Nat.add_zero]
      rfl
  | succ m ih =>
    cases n with
    | zero => omega
    | succ n =>
      have hi : i < cap := by omega
      have hz := hin i (le_refl _) (by omega)
      simp only [dashScan, hi, if_true, hz, hst, if_false]
      have e : i + 1 + m = i + (m + 1) := by omega
      have h := ih n (i + 1)
        ⟨st.dashbackStartIndex, st.dashbackEndIndex,
          (st.timeInRange + (d.data i).timeDiffUs) % U64_MOD⟩
        hst (by omega) (by omega) (fun k h1 h2 => hin k (by omega) (by omega))
        (by rw [e]; exact hout)
      rw [e] at h
      exact h.trans rfl

/-- What the scan has found when it delimits a run: `0 <= start <= end`, and `timeInRange`
is the wrapping sum of `timeDiffUs` over `[start, end]`. -/
theorem dashScan_post (cap : Nat) (d : WaveformData) (n i : Nat) (st st1 : DashScan)
    (h : dashScan cap d n i st = some st1) (hend : st.dashbackEndIndex = -1)
    (hinv : (st.dashbackStartIndex = -1 ∧ st.timeInRange = 0) ∨
      ∃ s : Nat, st.dashbackStartIndex = (s : Int) ∧ s < i ∧
        st.timeInRange = sumTimeU64 d (i - s) s 0) :
    st1.dashbackEndIndex = -1 ∨
      ∃ s e : Nat, st1.dashbackStartIndex = (s : Int) ∧ st1.dashbackEndIndex = (e : Int) ∧
        s ≤ e ∧ e < i + n ∧ st1.timeInRange = sumTimeU64 d (e + 1 - s) s 0 := by
  induction n generalizing i st with
  | zero =>
    simp only [dashScan, Option.some.injEq] at h
    rw [← h]
    exact Or.inl hend
  | succ n ih =>
    simp only [dashScan] at h
    by_cases hi : i < cap
    · rw [if_pos hi] at h
      by_cases hz : inDashZone (d.data i).ax = true
      · rw [if_pos hz] at h
        have hnext := ih (i + 1) _ h hend (by
          right
          rcases hinv with ⟨hs, ht⟩ | ⟨s, hs, hlt, ht⟩
          · refine ⟨i, by simp [hs], Nat.lt_succ_self i, ?_⟩
            simp only [ht, Nat.add_sub_cancel_left, sumTimeU64]
          · have hne : ¬ ((s : Int) = -1) := by omega
            refine ⟨s, by simp [hs, hne], by omega, ?_⟩
            have e : i + 1 - s = (i - s) + 1 := by omega
            simp only [ht]
            rw [e, sumTimeU64_succ]
            have e2 : s + (i - s) = i := by omega
            rw [e2])
        rcases hnext with hnext | ⟨s, e, h1, h2, h3, h4, h5⟩
        · exact Or.inl hnext
        · exact Or.inr ⟨s, e, h1, h2, h3, by omega, h5⟩
      · rw [if_neg hz] at h
        by_cases hs : st.dashbackStartIndex ≠ -1
        · rw [if_pos hs] at h
          simp only [Option.some.injEq] at h
          rcases hinv with ⟨hs1, _⟩ | ⟨s, hs1, hlt, ht⟩
          · exact absurd hs1 hs
          · right
            refine ⟨s, i - 1, by rw [← h]; exact hs1, ?_, by omega, by omega, ?_⟩
            · rw [← h]
              simp only []
              omega
            · rw [← h]
              simp only []
              have e : i - 1 + 1 - s = i - s := by omega
              rw [e]
              exact ht
        · rw [if_neg hs] at h
          rcases ih (i + 1) st h hend (by
            left
            rcases hinv with hl | ⟨s, hs1, _, _⟩
            · exact hl
            · exact absurd (by rw [hs1]; omega) hs) with hnext | ⟨s, e, h1, h2, h3, h4, h5⟩
          · exact Or.inl hnext
          · exact Or.inr ⟨s, e, h1, h2, h3, by omega, h5⟩
    · rw [if_neg hi] at h
      cases h

/-- The iteration bound of `ucfLookahead` is never what stops it: once the bound covers the
slots left in the array, a larger bound gives the same result. -/
theorem ucfLookahead_fuel (cap : Nat) (d : WaveformData) (fuel nextPollIndex usFromPoll : Nat)
    (h : cap ≤ nextPollIndex + 1 + fuel) :
    ucfLookahead cap d (fuel + 1) nextPollIndex usFromPoll =
      ucfLookahead cap d fuel nextPollIndex usFromPoll := by
  induction fuel generalizing nextPollIndex usFromPoll with
  | zero =>
    have hc : ¬ (nextPollIndex + 1 < cap) := by omega
    simp only [ucfLookahead, hc, if_false]
  | succ fuel ih =>
    have e : ucfLookahead cap d (fuel + 1 + 1) nextPollIndex usFromPoll =
        if usFromPoll < 16666 then
          if nextPollIndex + 1 < cap then
            ucfLookahead cap d (fuel + 1) (nextPollIndex + 1)
              ((usFromPoll + (d.data (nextPollIndex + 1)).timeDiffUs) % U64_MOD)
          else none
        else some nextPollIndex := rfl
    rw [e, ih (nextPollIndex + 1) _ (by omega)]
    rfl

theorem subU64_of_le (a b : Nat) (ha : a < U64_MOD) (hb : b ≤ a) : subU64 a b = a - b := by
  unfold subU64
  have hbm : b % U64_MOD = b := Nat.mod_eq_of_lt (by omega)
  rw [hbm]
  have e : a + (U64_MOD - b) = (a - b) + U64_MOD := by omega
  rw [e, Nat.add_mod_right]
  exact Nat.mod_eq_of_lt (by omega)

/-- Each slot of the run is subtracted at most once, so the total subtracted is at most the
run's total. -/
theorem ucfCorrection_le (cap : Nat) (d : WaveformData) (n i : Nat) :
    ucfCorrection cap d n i ≤ sumTimeRange d i n := by
  induction n generalizing i with
  | zero => exact Nat.le_refl _
  | succ n ih =>
    simp only [ucfCorrection, sumTimeRange, List.range'_succ, List.map_cons, List.sum_cons]
    have h1 := ih (i + 1)
    simp only [sumTimeRange] at h1
    apply Nat.add_le_add _ h1
    cases ucfLookahead cap d cap i 0 with
    | none => exact Nat.zero_le _
    | some j =>
      simp only []
      split_ifs
      · exact Nat.le_refl _
      · exact Nat.zero_le _

/-- When the total to subtract does not exceed the starting value, the UCF pass computes the
exact difference: no subtraction wraps. -/
theorem ucfPass_exact (cap : Nat) (d : WaveformData) (n i u r : Nat) (hu : u < U64_MOD)
    (hc : ucfCorrection cap d n i ≤ u) (h : ucfPass cap d n i u = some r) :
    r + ucfCorrection cap d n i = u := by
  induction n generalizing i u with
  | zero =>
    simp only [ucfPass, Option.some.injEq] at h
    simp only [ucfCorrection, Nat.add_zero]
    exact h.symm
  | succ n ih =>
    simp only [ucfPass] at h
    simp only [ucfCorrection] at hc ⊢
    cases hl : ucfLookahead cap d cap i 0 with
    | none =>
      rw [hl] at h
      cases h
    | some j =>
      rw [hl] at h hc
      simp only [] at h hc ⊢
      by_cases hconv : ucfConverts d i j = true
      · rw [if_pos hconv] at h hc ⊢
        rw [subU64_of_le u _ hu (by omega)] at h
        have := ih (i + 1) (u - (d.data i).timeDiffUs) (by omega) (by omega) h
        omega
      · rw [if_neg hconv] at h hc ⊢
        have := ih (i + 1) u hu (by omega) h
        omega

theorem clampPercent_bounds (p : ℚ) : 0 ≤ clampPercent p ∧ clampPercent p ≤ 100 := by
  unfold clampPercent
  dsimp only
  split_ifs with h1 h2 h2
  · exact ⟨le_refl _, by norm_num⟩
  · exact ⟨by norm_num, le_refl _⟩
  · exact ⟨le_refl _, by norm_num⟩
  · exact ⟨not_lt.1 h2, not_lt.1 h1⟩

/-- C9. Dashback bounds over exact rational arithmetic: whenever the DASHBACK test produces a
result (for any buffer, any `timeDiffUs` values and any frame time), `dashbackPercent` and
`ucfPercent` lie in `[0, 100]`.  When a run `[start, end]` was delimited, `timeInRange` is
the sum of `timeDiffUs` over the run (modulo `2 ^ 64`), and, that sum fitting in 64 bits,
the time subtracted by the UCF pass is at most `timeInRange` and `ucfTimeInRange` is the
exact difference: each slot of the run is subtracted at most once and the unsigned
subtraction never wraps. -/
theorem dashback_bounds (F : ℚ) (cap : Nat) (d : WaveformData) (r : DashbackResult)
    (h : dashbackTest F cap d = some r) :
    (0 ≤ r.dashbackPercent ∧ r.dashbackPercent ≤ 100) ∧
    (0 ≤ r.ucfPercent ∧ r.ucfPercent ≤ 100) ∧
    (r.dashbackEndIndex ≠ -1 →
      ∃ s e : Nat, r.dashbackStartIndex = (s : Int) ∧ r.dashbackEndIndex = (e : Int) ∧ s ≤ e ∧
        r.timeInRange = sumTimeRange d s (e + 1 - s) % U64_MOD ∧
        (sumTimeRange d s (e + 1 - s) < U64_MOD →
          ucfCorrection cap d (e + 1 - s) s ≤ r.timeInRange ∧
          r.ucfTimeInRange + ucfCorrection cap d (e + 1 - s) s = r.timeInRange)) := by
  unfold dashbackTest at h
  cases hscan : dashScan cap d d.endPoint 0 dashInit with
  | none =>
    rw [hscan] at h
    cases h
  | some st =>
    rw [hscan] at h
    simp only [] at h
    by_cases hend : st.dashbackEndIndex = -1
    · rw [if_pos hend] at h
      simp only [Option.some.injEq] at h
      rw [← h]
      refine ⟨⟨le_refl _, by norm_num⟩, ⟨le_refl _, by norm_num⟩, fun hne => ?_⟩
      exact absurd hend hne
    · rw [if_neg hend] at h
      rcases dashScan_post cap d d.endPoint 0 dashInit st hscan rfl (Or.inl ⟨rfl, rfl⟩) with
        hp | ⟨s, e, hs, he, hse, _, ht⟩
      · exact absurd hp hend
      · have hn : (st.dashbackEndIndex + 1 - st.dashbackStartIndex).toNat = e + 1 - s := by
          rw [hs, he]
          omega
        have hs0 : st.dashbackStartIndex.toNat = s := by
          rw [hs]
          rfl
        rw [hn, hs0] at h
        cases hucf : ucfPass cap d (e + 1 - s) s st.timeInRange with
        | none =>
          rw [hucf] at h
          cases h
        | some u =>
          rw [hucf] at h
          simp only [Option.some.injEq] at h
          rw [← h]
          refine ⟨clampPercent_bounds _, clampPercent_bounds _, fun _ =>
            ⟨s, e, hs, he, hse, ?_, fun hfit => ?_⟩⟩
          · simp only []
            rw [ht, sumTimeU64_eq d _ _ 0 (by decide), Nat.zero_add]
          · simp only []
            have hT : st.timeInRange = sumTimeRange d s (e + 1 - s) := by
              rw [ht, sumTimeU64_eq d _ _ 0 (by decide), Nat.zero_add, Nat.mod_eq_of_lt hfit]
            have hle : ucfCorrection cap d (e + 1 - s) s ≤ st.timeInRange := by
              rw [hT]
              exact ucfCorrection_le cap d _ _
            exact ⟨hle, ucfPass_exact cap d _ _ _ u (by rw [hT]; exact hfit) hle hucf⟩

/-- Witness for C9: on `dashbackExample` the run is `[1, 2]` with 5000 us in the zone, the UCF
pass subtracts both samples (corrected time 0), and the two percentages are within
`[0, 100]`. -/
theorem dashback_bounds_witness :
    dashbackTest (50 / 3) WAVEFORM_SAMPLES dashbackExample =
      some { dashbackStartIndex := 1, dashbackEndIndex := 2, timeInRange := 5000,
             ucfTimeInRange := 0, dashbackPercent := vanillaPercent (50 / 3) 5000,
             ucfPercent := ucfPercentOf (50 / 3) 0 } ∧
    (0 ≤ vanillaPercent (50 / 3) 5000 ∧ vanillaPercent (50 / 3) 5000 ≤ 100) ∧
    (0 ≤ ucfPercentOf (50 / 3) 0 ∧ ucfPercentOf (50 / 3) 0 ≤ 100) := by
  have h : dashbackTest (50 / 3) WAVEFORM_SAMPLES dashbackExample =
      some { dashbackStartIndex := 1, dashbackEndIndex := 2, timeInRange := 5000,
             ucfTimeInRange := 0, dashbackPercent := vanillaPercent (50 / 3) 5000,
             ucfPercent := ucfPercentOf (50 / 3) 0 } := by
    rfl
  have hw := dashback_bounds (50 / 3) WAVEFORM_SAMPLES dashbackExample _ h
  exact ⟨h, hw.1, hw.2.1⟩

/-! ## C10: Dashback detection -/

/-- No sample in the zone: the scan finds nothing. -/
theorem dashScan_no_zone (cap : Nat) (d : WaveformData) (hcap : d.endPoint ≤ cap)
    (hout : ∀ k, k < d.endPoint → inDashZone (d.data k).ax = false) :
    dashScan cap d d.endPoint 0 dashInit = some dashInit := by
  rw [dashScan_outside cap d d.endPoint d.endPoint 0 dashInit rfl (le_refl _) (by omega)
    (fun k _ h2 => hout k (by omega)), Nat.sub_self]
  rfl

/-- The first run of samples in the zone is `[s, e]` and a sample follows it: the scan
delimits exactly that run and sums its time. -/
theorem dashScan_first_run (cap : Nat) (d : WaveformData) (s e : Nat) (hse : s ≤ e)
    (he : e + 1 < d.endPoint) (hcap : d.endPoint ≤ cap)
    (hout : ∀ k, k < s → inDashZone (d.data k).ax = false)
    (hin : ∀ k, s ≤ k → k ≤ e → inDashZone (d.data k).ax = true)
    (hexit : inDashZone (d.data (e + 1)).ax = false) :
    dashScan cap d d.endPoint 0 dashInit =
      some { dashbackStartIndex := (s : Int), dashbackEndIndex := (e : Int),
             timeInRange := sumTimeU64 d (e + 1 - s) s 0 } := by
  rw [dashScan_outside cap d s d.endPoint 0 dashInit rfl (by omega) (by omega)
    (fun k _ h2 => hout k (by omega)), Nat.zero_add]
  obtain ⟨n, hn⟩ : ∃ n, d.endPoint - s = n + 1 := ⟨d.endPoint - s - 1, by omega⟩
  rw [hn, dashScan_enter cap d n s dashInit rfl (by omega) (hin s (le_refl _) hse)]
  have hexit1 : inDashZone (d.data (s + 1 + (e - s))).ax = false := by
    rw [show s + 1 + (e - s) = e + 1 by omega]
    exact hexit
  rw [dashScan_leave cap d (e - s) n (s + 1) _ (by simp) (by omega) (by omega)
    (fun k h1 h2 => hin k (by omega) (by omega)) hexit1]
  have e1 : e + 1 - s = (e - s) + 1 := by omega
  have e2 : (((s + 1 + (e - s) : Nat) : Int) - 1) = (e : Int) := by omega
  rw [e1, e2]
  rfl

/-- The first run of samples in the zone starts at `s` and reaches the last sample: the scan
records the start and the time but leaves `dashbackEndIndex` at `-1`. -/
theorem dashScan_run_to_end (cap : Nat) (d : WaveformData) (s : Nat) (hs : s < d.endPoint)
    (hcap : d.endPoint ≤ cap) (hout : ∀ k, k < s → inDashZone (d.data k).ax = false)
    (hin : ∀ k, s ≤ k → k < d.endPoint → inDashZone (d.data k).ax = true) :
    dashScan cap d d.endPoint 0 dashInit =
      some { dashbackStartIndex := (s : Int), dashbackEndIndex := -1,
             timeInRange := sumTimeU64 d (d.endPoint - s) s 0 } := by
  rw [dashScan_outside cap d s d.endPoint 0 dashInit rfl (by omega) (by omega)
    (fun k _ h2 => hout k (by omega)), Nat.zero_add]
  obtain ⟨n, hn⟩ : ∃ n, d.endPoint - s = n + 1 := ⟨d.endPoint - s - 1, by omega⟩
  rw [hn, dashScan_enter cap d n s dashInit rfl (by omega) (hin s (le_refl _) hs)]
  rw [dashScan_inside cap d n (s + 1) _ (by simp) (by omega)
    (fun k h1 h2 => hin k (by omega) (by omega))]
  rfl

/-- A run that reaches the last sample is reported as "0 / 0", like no run at all. -/
theorem dashbackTest_run_to_end (F : ℚ) (cap : Nat) (d : WaveformData) (s : Nat)
    (hs : s < d.endPoint) (hcap : d.endPoint ≤ cap)
    (hout : ∀ k, k < s → inDashZone (d.data k).ax = false)
    (hin : ∀ k, s ≤ k → k < d.endPoint → inDashZone (d.data k).ax = true) :
    dashbackTest F cap d =
      some { dashbackStartIndex := (s : Int), dashbackEndIndex := -1,
             timeInRange := sumTimeU64 d (d.endPoint - s) s 0,
             ucfTimeInRange := sumTimeU64 d (d.endPoint - s) s 0,
             dashbackPercent := 0, ucfPercent := 0 } := by
  unfold dashbackTest
  rw [dashScan_run_to_end cap d s hs hcap hout hin]
  rfl

/-- What the DASHBACK test does when the first run `[s, e]` of samples in the zone ends
before the last sample: it delimits that run, `timeInRange` is the sum of `timeDiffUs` over
it (modulo `2 ^ 64`) and the vanilla percentage is the clamped
`(1 - (timeInRange / 1000) / F) * 100`. -/
theorem dashbackTest_first_run (F : ℚ) (cap : Nat) (d : WaveformData) (s e : Nat) (hse : s ≤ e)
    (he : e + 1 < d.endPoint) (hcap : d.endPoint ≤ cap)
    (hout : ∀ k, k < s → inDashZone (d.data k).ax = false)
    (hin : ∀ k, s ≤ k → k ≤ e → inDashZone (d.data k).ax = true)
    (hexit : inDashZone (d.data (e + 1)).ax = false)
    (r : DashbackResult) (h : dashbackTest F cap d = some r) :
    r.dashbackStartIndex = (s : Int) ∧ r.dashbackEndIndex = (e : Int) ∧
    r.timeInRange = sumTimeRange d s (e + 1 - s) % U64_MOD ∧
    r.dashbackPercent = clampPercent ((1 - ((r.timeInRange : ℚ) / 1000) / F) * 100) := by
  unfold dashbackTest at h
  rw [dashScan_first_run cap d s e hse he hcap hout hin hexit] at h
  simp only [] at h
  have hne : ¬ ((e : Int) = -1) := by omega
  rw [if_neg hne] at h
  cases hucf : ucfPass cap d ((e : Int) + 1 - (s : Int)).toNat (s : Int).toNat
      (sumTimeU64 d (e + 1 - s) s 0) with
  | none =>
    rw [hucf] at h
    cases h
  | some u =>
    rw [hucf] at h
    simp only [Option.some.injEq] at h
    rw [← h]
    refine ⟨rfl, rfl, ?_, rfl⟩
    simp only []
    rw [sumTimeU64_eq d _ _ 0 (by decide), Nat.zero_add]

theorem endedState_endPoint (t0 : Nat) (first : WaveformDatapoint)
    (rest : List WaveformDatapoint) :
    (endedState t0 first rest).data.endPoint = rest.length + 1 := rfl

theorem endedState_data (t0 : Nat) (first : WaveformDatapoint) (rest : List WaveformDatapoint)
    (k : Nat) (hk : k < rest.length + 1) :
    (first :: rest)[k]? = some ((endedState t0 first rest).data.data k) := by
  have h := fillFrom_inside zeroData 0 (first :: rest) k (by rw [List.length_cons]; exact hk)
  rw [Nat.zero_add] at h
  exact h

/-- C10, the code at the failing input.  Holding the stick at `x = 30` until the buffer is
full gives a ready buffer of `WAVEFORM_SAMPLES` samples that all lie in the dash zone; the
run extends to the last sample, the scan never sets `dashbackEndIndex`, and the DASHBACK
test reports "0 / 0" for it, whatever the frame time. -/
theorem dashback_full_buffer_reports_zero :
    ∃ s, runSamples WAVEFORM_SAMPLES initState
        (List.replicate WAVEFORM_SAMPLES ⟨30, 0, 1000⟩) = some s ∧
      s.data.isDataReady = true ∧ s.data.endPoint = WAVEFORM_SAMPLES ∧
      (∀ k, k < WAVEFORM_SAMPLES → s.data.data k = ⟨30, 0, 1000⟩) ∧
      ∀ F : ℚ, ∃ r, dashbackTest F WAVEFORM_SAMPLES s.data = some r ∧
        r.dashbackStartIndex = 0 ∧ r.dashbackEndIndex = -1 ∧
        r.dashbackPercent = 0 ∧ r.ucfPercent = 0 := by
  have h500 : WAVEFORM_SAMPLES = 500 := rfl
  have hl : List.replicate WAVEFORM_SAMPLES (⟨30, 0, 1000⟩ : WaveformDatapoint) =
      ⟨30, 0, 1000⟩ :: List.replicate 499 ⟨30, 0, 1000⟩ := rfl
  generalize hrest : List.replicate 499 (⟨30, 0, 1000⟩ : WaveformDatapoint) = rest at hl
  have hlen : rest.length = 499 := by
    rw [← hrest]
    exact List.length_replicate _ _
  have hmem : ∀ q ∈ rest, q = (⟨30, 0, 1000⟩ : WaveformDatapoint) := by
    intro q hq
    rw [← hrest] at hq
    exact List.eq_of_mem_replicate hq
  have hne : rest ≠ [] := by
    intro h
    rw [h] at hlen
    exact absurd hlen (by decide)
  have hrun := runSamples_full WAVEFORM_SAMPLES 0 ⟨30, 0, 1000⟩ rfl rest hne
    (by rw [hlen, h500]) (fun q hq => by rw [hmem q hq]; rfl)
  have hcount : (endedState 0 ⟨30, 0, 1000⟩ rest).data.endPoint = WAVEFORM_SAMPLES := by
    rw [endedState_endPoint, hlen, h500]
  have hdata : ∀ k, k < WAVEFORM_SAMPLES →
      (endedState 0 ⟨30, 0, 1000⟩ rest).data.data k = ⟨30, 0, 1000⟩ := by
    intro k hk
    have h1 := endedState_data 0 ⟨30, 0, 1000⟩ rest k (by omega)
    have h2 : ((⟨30, 0, 1000⟩ : WaveformDatapoint) :: rest)[k]? = some ⟨30, 0, 1000⟩ := by
      cases k with
      | zero => exact List.getElem?_cons_zero
      | succ j =>
        rw [List.getElem?_cons_succ]
        have hj : j < rest.length := by omega
        rw [List.getElem?_eq_getElem hj]
        exact congrArg some (hmem _ (List.getElem_mem hj))
    rw [h2] at h1
    exact (Option.some.inj h1).symm
  have hzone : ∀ k, 0 ≤ k → k < (endedState 0 ⟨30, 0, 1000⟩ rest).data.endPoint →
      inDashZone ((endedState 0 ⟨30, 0, 1000⟩ rest).data.data k).ax = true := by
    intro k _ hk
    rw [hdata k (by rw [← hcount]; exact hk)]
    rfl
  refine ⟨_, by rw [hl]; exact hrun, rfl, hcount, hdata, fun F => ?_⟩
  exact ⟨_, dashbackTest_run_to_end F WAVEFORM_SAMPLES _ 0 (by rw [hcount]; decide)
    (by rw [hcount]) (fun k hk => absurd hk (Nat.not_lt_zero k)) hzone, rfl, rfl, rfl, rfl⟩

/-! ## C11: the UCF look-ahead -/

theorem sumTimeRange_succ (d : WaveformData) (first n : Nat) :
    sumTimeRange d first (n + 1) = (d.data first).timeDiffUs + sumTimeRange d (first + 1) n := by
  simp only [sumTimeRange, List.range'_succ, List.map_cons, List.sum_cons]

/-- The look-ahead never moves backwards. -/
theorem ucfLookahead_ge (cap : Nat) (d : WaveformData) (fuel nextPollIndex usFromPoll j : Nat)
    (h : ucfLookahead cap d fuel nextPollIndex usFromPoll = some j) : nextPollIndex ≤ j := by
  induction fuel generalizing nextPollIndex usFromPoll with
  | zero =>
    simp only [ucfLookahead] at h
    split_ifs at h
    simp only [Option.some.injEq] at h
    omega
  | succ fuel ih =>
    simp only [ucfLookahead] at h
    split_ifs at h
    · have := ih _ _ h
      omega
    · simp only [Option.some.injEq] at h
      omega

/-- When the look-ahead lands on a captured slot `j < n`, it has read captured slots only:
any buffer with the same slots below `n` gives the same result. -/
theorem ucfLookahead_inside (cap : Nat) (d d1 : WaveformData) (n : Nat)
    (hagree : ∀ k, k < n → d.data k = d1.data k) (fuel nextPollIndex usFromPoll j : Nat)
    (h : ucfLookahead cap d fuel nextPollIndex usFromPoll = some j) (hj : j < n) :
    ucfLookahead cap d1 fuel nextPollIndex usFromPoll = some j := by
  induction fuel generalizing nextPollIndex usFromPoll with
  | zero => exact h
  | succ fuel ih =>
    simp only [ucfLookahead] at h ⊢
    split_ifs at h ⊢ with h1 h2
    · have hge := ucfLookahead_ge cap d _ _ _ _ h
      rw [← hagree (nextPollIndex + 1) (by omega)]
      exact ih _ _ h
    · exact h

/-- The look-ahead is bounded by the array, not by the count: when the slots after `i` up to
the end of the array sum to less than 16666 us, it runs to slot `cap`, outside the array.
On a full buffer slot `cap` is slot `count`. -/
theorem ucfLookahead_short_tail (cap : Nat) (d : WaveformData)
    (fuel nextPollIndex usFromPoll : Nat)
    (h : usFromPoll + sumTimeRange d (nextPollIndex + 1) (cap - (nextPollIndex + 1)) < 16666) :
    ucfLookahead cap d fuel nextPollIndex usFromPoll = none := by
  induction fuel generalizing nextPollIndex usFromPoll with
  | zero =>
    have h1 : usFromPoll < 16666 := by omega
    simp only [ucfLookahead, h1, if_true]
  | succ fuel ih =>
    have h1 : usFromPoll < 16666 := by omega
    simp only [ucfLookahead, h1, if_true]
    split_ifs with hc
    · obtain ⟨m, hm⟩ : ∃ m, cap - (nextPollIndex + 1) = m + 1 :=
        ⟨cap - (nextPollIndex + 1) - 1, by omega⟩
      rw [hm, sumTimeRange_succ] at h
      have hmod : (usFromPoll + (d.data (nextPollIndex + 1)).timeDiffUs) % U64_MOD =
          usFromPoll + (d.data (nextPollIndex + 1)).timeDiffUs :=
        Nat.mod_eq_of_lt (by unfold U64_MOD; omega)
      rw [hmod]
      apply ih
      have e : cap - (nextPollIndex + 1 + 1) = m := by omega
      rw [e]
      omega
    · rfl

/-- C11, the code at the failing input.  After the two captures of `dashTwoCaptures`, with
the DASHBACK test selected, the buffer is ready with count 2 and
`samples[0..2) = (30, 0, 1000), (0, 0, 1000)`; slot 2 still holds `(60, 0, 20000)` from the
first capture.  The run is `[0, 0]` and the samples after slot 0 up to slot `count - 1` sum
to 1000 us, less than 16666.  The look-ahead loop has no test against the count: it goes on
to slot 2, lands there, and the stale sample makes the UCF pass subtract the time of slot 0
(corrected time 0, UCF percentage 100) instead of leaving slot 0 out of the correction. -/
theorem ucf_lookahead_reads_past_count :
    ∃ s, runEvents WAVEFORM_SAMPLES initState dashTwoCaptures = some s ∧
      s.currentTest = OSCILLOSCOPE_TEST.DASHBACK ∧
      s.data.isDataReady = true ∧ s.data.endPoint = 2 ∧
      s.data.data 0 = ⟨30, 0, 1000⟩ ∧ s.data.data 1 = ⟨0, 0, 1000⟩ ∧
      s.data.data 2 = ⟨60, 0, 20000⟩ ∧
      sumTimeRange s.data 1 1 = 1000 ∧
      ucfLookahead WAVEFORM_SAMPLES s.data WAVEFORM_SAMPLES 0 0 = some 2 ∧
      ucfConverts s.data 0 2 = true ∧
      ∀ F : ℚ, dashbackTest F WAVEFORM_SAMPLES s.data =
        some { dashbackStartIndex := 0, dashbackEndIndex := 0, timeInRange := 1000,
               ucfTimeInRange := 0, dashbackPercent := vanillaPercent F 1000,
               ucfPercent := ucfPercentOf F 0 } ∧
        ucfPercentOf F 0 = 100 := by
  have hucf : ∀ F : ℚ, ucfPercentOf F 0 = 100 := by
    intro F
    norm_num [ucfPercentOf, clampPercent]
  exact ⟨_, rfl, rfl, rfl, rfl, rfl, rfl, rfl, rfl, rfl, rfl, fun F => ⟨rfl, hucf F⟩⟩

/-! ## C12: the range of the Pivot scan -/

/-- C12, the code at the failing input.  The captures `oneCapture` and `twoCaptures` end
with the same count 2 and the same `samples[0..2) = (-85, 0, 1000), (0, 0, 40000)`; they
differ in slot 2, which is still zero after `oneCapture` and holds `(85, 0, 16000)` from the
first capture of `twoCaptures`.  The PIVOT scan starts at slot `count = 2`, so the results
differ: "No pivot input detected." for the first buffer, a pivot over `[2, 2]` with its
percentages for the second. -/
theorem pivot_result_depends_on_slot_count :
    ∃ sA sB, runEvents WAVEFORM_SAMPLES initState oneCapture = some sA ∧
      runEvents WAVEFORM_SAMPLES initState twoCaptures = some sB ∧
      sA.data.isDataReady = true ∧ sB.data.isDataReady = true ∧
      sA.data.endPoint = 2 ∧ sB.data.endPoint = 2 ∧
      (∀ k, k < 2 → sA.data.data k = sB.data.data k) ∧
      sA.data.data 2 = ⟨0, 0, 0⟩ ∧ sB.data.data 2 = ⟨85, 0, 16000⟩ ∧
      ∀ F : ℚ, pivotTest F WAVEFORM_SAMPLES sA.data = some PivotResult.noPivot ∧
        pivotTest F WAVEFORM_SAMPLES sB.data =
          some (PivotResult.pivot 2 2 16000 (pivotPercents F 16000)) := by
  refine ⟨_, _, rfl, rfl, rfl, rfl, rfl, rfl, ?_, rfl, rfl, fun _ => ⟨rfl, rfl⟩⟩
  intro k hk
  interval_cases k <;> rfl

theorem pivotScan_ext (cap : Nat) (d d1 : WaveformData) (i : Nat) (st : PivotScan)
    (h : ∀ k, k ≤ i → d.data k = d1.data k) :
    pivotScan cap d i st = pivotScan cap d1 i st := by
  induction i generalizing st with
  | zero => simp only [pivotScan, h 0 (le_refl _)]
  | succ i ih =>
    simp only [pivotScan, h (i + 1) (le_refl _)]
    split_ifs
    · rfl
    · exact ih _ (fun k hk => h k (by omega))
    · rfl

theorem sumTimeU64_ext (d d1 : WaveformData) (n first acc : Nat)
    (h : ∀ k, first ≤ k → k < first + n → d.data k = d1.data k) :
    sumTimeU64 d n first acc = sumTimeU64 d1 n first acc := by
  induction n generalizing first acc with
  | zero => rfl
  | succ n ih =>
    simp only [sumTimeU64, h first (le_refl _) (by omega)]
    exact ih _ _ (fun k h1 h2 => h k (by omega) (by omega))

/-- What the PIVOT test reads: the count and the slots `[0, count]`, slot `count` included.
Two buffers that agree on them get the same result. -/
theorem pivotTest_ext (F : ℚ) (cap : Nat) (d d1 : WaveformData)
    (hcount : d.endPoint = d1.endPoint) (h : ∀ k, k ≤ d.endPoint → d.data k = d1.data k) :
    pivotTest F cap d = pivotTest F cap d1 := by
  unfold pivotTest
  rw [← hcount, ← pivotScan_ext cap d d1 d.endPoint pivotInit h]
  cases hscan : pivotScan cap d d.endPoint pivotInit with
  | none => rfl
  | some st =>
    simp only []
    by_cases hflags : st.prevPivotHit80 = true ∧ st.pivotHit80 = true
    · rw [if_pos hflags, if_pos hflags]
      obtain ⟨e, g, f, f1, hshape, he, hg, _⟩ :=
        pivotScan_sound cap d d.endPoint d.endPoint pivotInit st (le_refl _)
          (Or.inl ⟨rfl, fun k hk hkt => absurd hkt (by omega)⟩) hscan hflags.1
      have hge : g < e := hshape.2.1
      have hle : e ≤ d.endPoint := hshape.2.2.1
      have hdata : d.data st.pivotEndIndex.toNat = d1.data st.pivotEndIndex.toNat :=
        h _ (by rw [he]; omega)
      have hsum : sumTimeU64 d (st.pivotEndIndex + 1 - st.pivotStartIndex).toNat
          st.pivotStartIndex.toNat 0 =
          sumTimeU64 d1 (st.pivotEndIndex + 1 - st.pivotStartIndex).toNat
            st.pivotStartIndex.toNat 0 :=
        sumTimeU64_ext d d1 _ _ 0 (fun k h1 h2 => h k (by rw [he, hg] at h2; omega))
      rw [hdata, hsum]
    · rw [if_neg hflags, if_neg hflags]

end FossScope
